import Mathlib

/-!
# Verification of the NTC-CLI wrapper library (`libraries/ntc.py`)

This file is a shallow embedding of the parts of `libraries/ntc.py` that the
specification's claims are about:

* the line classifier — the module-level `Regex` objects (`_baseCompRateRegex`,
  `_bppRegex`, ..., `_systemRegex`) together with `re.match` prefix semantics;
* the result accumulator and job runner — the `run(args)` function, its
  `Result`/`CompressionRun` dataclasses, `Arguments.get_command_line`, and the
  `RuntimeError` failure record;
* the concurrent dispatcher — `process_concurrent_tasks`, modelled as a labelled
  transition system whose atomic steps are exactly the mutex-protected (or
  single-variable) actions of `_thread_function` and the SIGINT handler.

Python `float` values are modelled as exact rationals (`ℚ`), with a separate
constructor for the positive-infinity value produced by `float('inf')`: every
numeric literal appearing in the claims is exactly representable, so no
floating-point rounding is relevant to them.  External effects (the spawned
process, wall-clock time) are inputs to the model: `run` receives the process's
exit code and captured streams as a `ProcOutput`, and the dispatcher's step
system is parameterised by which jobs fail and which callback invocations raise.
-/

/-- A Python float as produced by `float(s)` on the strings this module feeds
it: either the positive-infinity value (`float('inf')`) or a finite value,
modelled exactly as a rational. -/
inductive PFloat where
  | inf : PFloat
  | fin : ℚ → PFloat
deriving DecidableEq

/-- Character class `[0-9]` (also Python's `\d` for these ASCII-only lines). -/
def isDigitCh (c : Char) : Bool := '0' ≤ c && c ≤ '9'

/-- Character class `[0-9\.]` used by the float-valued groups. -/
def isNumDotCh (c : Char) : Bool := isDigitCh c || c == '.'

/-- Character class `\w` (`[A-Za-z0-9_]`), used by the `type` group of
`_overallPsnrRegex`. -/
def isWordCh (c : Char) : Bool :=
  isDigitCh c || ('a' ≤ c && c ≤ 'z') || ('A' ≤ c && c ≤ 'Z') || c == '_'

/-- Character class `[A-Z_]` used by `_networkVersionRegex`. -/
def isUpperUnderscoreCh (c : Char) : Bool := ('A' ≤ c && c ≤ 'Z') || c == '_'

/-- Character class `\s` restricted to characters that can occur inside one
line of `str.splitlines` output. -/
def isSpaceCh (c : Char) : Bool := c == ' ' || c == '\t' || c == '\x0b' || c == '\x0c' || c == '\r'

/-- Match a literal fragment of a pattern against a prefix of the input,
returning the remaining input. -/
def lit : List Char → List Char → Option (List Char)
  | [], cs => some cs
  | _ :: _, [] => none
  | p :: ps, c :: cs => if c == p then lit ps cs else none

/-- Greedy `class+` matching: the longest nonempty run of characters satisfying
`p`, with the rest of the input.  In every pattern of the source, the fragment
following such a group starts with a character outside the class, so the greedy
longest run is exactly what Python's backtracking engine commits to. -/
def run1 (p : Char → Bool) (cs : List Char) : Option (List Char × List Char) :=
  let tok := cs.takeWhile p
  match tok with
  | [] => none
  | _ :: _ => some (tok, cs.drop tok.length)

/-- The group `(?P<x>[0-9\.]+|inf)`: a nonempty run of `[0-9.]` characters, or
else the literal token `inf`.  (The two alternatives start with disjoint
characters, so this is exactly the regex's behaviour.) -/
def numOrInf (cs : List Char) : Option (List Char × List Char) :=
  match run1 isNumDotCh cs with
  | some r => some r
  | none =>
    match lit "inf".toList cs with
    | some rest => some ("inf".toList, rest)
    | none => none

/-- `_baseCompRateRegex = r'Base compression rate: --bitsPerPixel (?P<bpp>[0-9\.]+)'`.
Returns the `bpp` group. -/
def matchBaseCompRate (cs : List Char) : Option (List Char) := do
  let r ← lit "Base compression rate: --bitsPerPixel ".toList cs
  let (bpp, _) ← run1 isNumDotCh r
  pure bpp

/-- `_bppRegex = r'Selected compression rate: (?P<bpp>[0-9\.]+) bpp, (?P<psnr>[0-9\.]+|inf) dB PSNR'`.
Returns the `(bpp, psnr)` groups. -/
def matchBpp (cs : List Char) : Option (List Char × List Char) := do
  let r ← lit "Selected compression rate: ".toList cs
  let (bpp, r) ← run1 isNumDotCh r
  let r ← lit " bpp, ".toList r
  let (psnr, r) ← numOrInf r
  let _ ← lit " dB PSNR".toList r
  pure (bpp, psnr)

/-- `_bcQualityRegex = r'Combined BCn PSNR: (?P<psnr>[0-9\.]+|inf) dB, bit rate: (?P<bpp>[0-9\.]+) bpp'`. -/
def matchBcQuality (cs : List Char) : Option (List Char × List Char) := do
  let r ← lit "Combined BCn PSNR: ".toList cs
  let (psnr, r) ← numOrInf r
  let r ← lit " dB, bit rate: ".toList r
  let (bpp, r) ← run1 isNumDotCh r
  let _ ← lit " bpp".toList r
  pure (psnr, bpp)

/-- `_cudaDecompressionTimeRegex = r'CUDA decompression time: (?P<milliseconds>[0-9\.]+) ms'`. -/
def matchCudaDecompTime (cs : List Char) : Option (List Char) := do
  let r ← lit "CUDA decompression time: ".toList cs
  let (ms, r) ← run1 isNumDotCh r
  let _ ← lit " ms".toList r
  pure ms

/-- `_dimensionsRegex = r'Dimensions: (?P<width>\d+)x(?P<height>\d+), (?P<channels>\d+) channels, (?P<mipLevels>\d+) mip level\(s\)'`. -/
def matchDimensions (cs : List Char) : Option (List Char × List Char × List Char × List Char) := do
  let r ← lit "Dimensions: ".toList cs
  let (w, r) ← run1 isDigitCh r
  let r ← lit "x".toList r
  let (h, r) ← run1 isDigitCh r
  let r ← lit ", ".toList r
  let (ch, r) ← run1 isDigitCh r
  let r ← lit " channels, ".toList r
  let (mips, r) ← run1 isDigitCh r
  let _ ← lit " mip level(s)".toList r
  pure (w, h, ch, mips)

/-- `_experimentRegex = r'Experiment (?P<index>\d+): (?P<bpp>[0-9\.]+) bpp'`. -/
def matchExperiment (cs : List Char) : Option (List Char × List Char) := do
  let r ← lit "Experiment ".toList cs
  let (idx, r) ← run1 isDigitCh r
  let r ← lit ": ".toList r
  let (bpp, r) ← run1 isNumDotCh r
  let _ ← lit " bpp".toList r
  pure (idx, bpp)

/-- `_fileSizeRegex = r'File size: (?P<bytes>\d+) bytes, (?P<bpp>[0-9\.]+) bits per pixel'`. -/
def matchFileSize (cs : List Char) : Option (List Char × List Char) := do
  let r ← lit "File size: ".toList cs
  let (bytes, r) ← run1 isDigitCh r
  let r ← lit " bytes, ".toList r
  let (bpp, r) ← run1 isNumDotCh r
  let _ ← lit " bits per pixel".toList r
  pure (bytes, bpp)

/-- `_graphicsDecompressionTimeRegex = r'Median decompression time over \d+ iterations: (?P<milliseconds>[0-9\.]+) ms'`. -/
def matchGraphicsDecompTime (cs : List Char) : Option (List Char) := do
  let r ← lit "Median decompression time over ".toList cs
  let (_, r) ← run1 isDigitCh r
  let r ← lit " iterations: ".toList r
  let (ms, r) ← run1 isNumDotCh r
  let _ ← lit " ms".toList r
  pure ms

/-- `_latentShapeRegex = r'Latent shape: --gridSizeScale (?P<gss>\d+) --highResFeatures (?P<hrf>\d+) --lowResFeatures (?P<lrf>\d+) --highResQuantBits (?P<hrqb>\d+) --lowResQuantBits (?P<lrqb>\d+)'`. -/
def matchLatentShape (cs : List Char) :
    Option (List Char × List Char × List Char × List Char × List Char) := do
  let r ← lit "Latent shape: --gridSizeScale ".toList cs
  let (gss, r) ← run1 isDigitCh r
  let r ← lit " --highResFeatures ".toList r
  let (hrf, r) ← run1 isDigitCh r
  let r ← lit " --lowResFeatures ".toList r
  let (lrf, r) ← run1 isDigitCh r
  let r ← lit " --highResQuantBits ".toList r
  let (hrqb, r) ← run1 isDigitCh r
  let r ← lit " --lowResQuantBits ".toList r
  let (lrqb, _) ← run1 isDigitCh r
  pure (gss, hrf, lrf, hrqb, lrqb)

/-- `_mipRegex = r'MIP\s+(?P<mipLevel>\d+)\s+PSNR: (?P<psnr>[0-9\.]+|inf) dB'`. -/
def matchMip (cs : List Char) : Option (List Char × List Char) := do
  let r ← lit "MIP".toList cs
  let (_, r) ← run1 isSpaceCh r
  let (lvl, r) ← run1 isDigitCh r
  let (_, r) ← run1 isSpaceCh r
  let r ← lit "PSNR: ".toList r
  let (psnr, r) ← numOrInf r
  let _ ← lit " dB".toList r
  pure (lvl, psnr)

/-- `_networkVersionRegex = r'Network version: (?P<version>[A-Z_]+)'`. -/
def matchNetworkVersion (cs : List Char) : Option (List Char) := do
  let r ← lit "Network version: ".toList cs
  let (ver, _) ← run1 isUpperUnderscoreCh r
  pure ver

/-- `_overallPsnrRegex = r'Overall PSNR \((?P<type>\w+) weights\): (?P<psnr>[0-9\.]+|inf) dB'`. -/
def matchOverallPsnr (cs : List Char) : Option (List Char × List Char) := do
  let r ← lit "Overall PSNR (".toList cs
  let (ty, r) ← run1 isWordCh r
  let r ← lit " weights): ".toList r
  let (psnr, r) ← numOrInf r
  let _ ← lit " dB".toList r
  pure (ty, psnr)

/-- `_stepRegex = r'Training: (?P<steps>\d+) steps, (?P<milliseconds>[0-9\.]+) ms/step, intermediate PSNR: (?P<psnr>[0-9\.]+|inf) dB'`. -/
def matchStep (cs : List Char) : Option (List Char × List Char × List Char) := do
  let r ← lit "Training: ".toList cs
  let (steps, r) ← run1 isDigitCh r
  let r ← lit " steps, ".toList r
  let (ms, r) ← run1 isNumDotCh r
  let r ← lit " ms/step, intermediate PSNR: ".toList r
  let (psnr, r) ← numOrInf r
  let _ ← lit " dB".toList r
  pure (steps, ms, psnr)

/-- The single indicator-letter groups `(?P<dp4a>[YN])` etc. of `_systemRegex`. -/
def ynChar : List Char → Option (Char × List Char)
  | [] => none
  | c :: rest => if c == 'Y' || c == 'N' then some (c, rest) else none

/-- The fixed tail of `_systemRegex` after the `api` group:
`' API\. DP4a \[(?P<dp4a>[YN])\], FP16 \[(?P<fp16>[YN])\], CoopVec-Int8 \[(?P<coopVecInt8>[YN])\], CoopVec-FP8 \[(?P<coopVecFP8>[YN])\]'`. -/
def matchSystemTail (cs : List Char) : Option (Char × Char × Char × Char) := do
  let r ← lit " API. DP4a [".toList cs
  let (a, r) ← ynChar r
  let r ← lit "], FP16 [".toList r
  let (b, r) ← ynChar r
  let r ← lit "], CoopVec-Int8 [".toList r
  let (c, r) ← ynChar r
  let r ← lit "], CoopVec-FP8 [".toList r
  let (d, r) ← ynChar r
  let _ ← lit "]".toList r
  pure (a, b, c, d)

/-- Try split positions from the longest candidate down to length 1, mirroring
the backtracking order of a greedy `(.+)` group. -/
def firstFromTop (f : Nat → Option α) : Nat → Option α
  | 0 => none
  | n + 1 =>
    match f (n + 1) with
    | some a => some a
    | none => firstFromTop f n

/-- The `(?P<api>.+)` group of `_systemRegex` followed by its fixed tail,
with the greedy (longest-first) choice of the `api` text. -/
def matchSystemApi (cs : List Char) : Option (List Char × Char × Char × Char × Char) :=
  firstFromTop (fun i => do
    let (a, b, c, d) ← matchSystemTail (cs.drop i)
    pure (cs.take i, a, b, c, d)) cs.length

/-- `_systemRegex = r'Using (?P<gpu>.+) with (?P<api>.+) API\. DP4a \[..\], FP16 \[..\], CoopVec-Int8 \[..\], CoopVec-FP8 \[..\]'`,
with both `(.+)` groups greedy. -/
def matchSystem (cs : List Char) :
    Option (List Char × List Char × Char × Char × Char × Char) := do
  let r ← lit "Using ".toList cs
  firstFromTop (fun i => do
    let r2 ← lit " with ".toList (r.drop i)
    let (api, a, b, c, d) ← matchSystemApi r2
    pure (r.take i, api, a, b, c, d)) r.length

/-- A classified output line: one constructor per `Regex` of the source, in the
order the `run()` loop tries them, carrying the raw matched group texts. -/
inductive Event where
  | baseRate (bpp : List Char)
  | selectedRate (bpp psnr : List Char)
  | bcQuality (psnr bpp : List Char)
  | cudaDecompTime (ms : List Char)
  | dims (w h ch mips : List Char)
  | experiment (idx bpp : List Char)
  | fileSize (bytes bpp : List Char)
  | graphicsDecompTime (ms : List Char)
  | latentShape (gss hrf lrf hrqb lrqb : List Char)
  | mip (lvl psnr : List Char)
  | networkVersion (ver : List Char)
  | overallPsnr (ty psnr : List Char)
  | trainingStep (steps ms psnr : List Char)
  | system (gpu api : List Char) (dp4a fp16 cvi8 cvf8 : Char)
deriving DecidableEq

/-- The first-match-wins classification performed by the `if m := ... elif m := ...`
chain of `run()` (source lines 266-325), in source order.  `none` models a line
that matches no pattern and is silently ignored. -/
def classify (cs : List Char) : Option Event :=
  match matchBaseCompRate cs with
  | some bpp => some (.baseRate bpp)
  | none =>
  match matchBpp cs with
  | some (bpp, psnr) => some (.selectedRate bpp psnr)
  | none =>
  match matchBcQuality cs with
  | some (psnr, bpp) => some (.bcQuality psnr bpp)
  | none =>
  match matchCudaDecompTime cs with
  | some ms => some (.cudaDecompTime ms)
  | none =>
  match matchDimensions cs with
  | some (w, h, ch, mips) => some (.dims w h ch mips)
  | none =>
  match matchExperiment cs with
  | some (idx, bpp) => some (.experiment idx bpp)
  | none =>
  match matchFileSize cs with
  | some (bytes, bpp) => some (.fileSize bytes bpp)
  | none =>
  match matchGraphicsDecompTime cs with
  | some ms => some (.graphicsDecompTime ms)
  | none =>
  match matchLatentShape cs with
  | some (gss, hrf, lrf, hrqb, lrqb) => some (.latentShape gss hrf lrf hrqb lrqb)
  | none =>
  match matchMip cs with
  | some (lvl, psnr) => some (.mip lvl psnr)
  | none =>
  match matchNetworkVersion cs with
  | some ver => some (.networkVersion ver)
  | none =>
  match matchOverallPsnr cs with
  | some (ty, psnr) => some (.overallPsnr ty psnr)
  | none =>
  match matchStep cs with
  | some (steps, ms, psnr) => some (.trainingStep steps ms psnr)
  | none =>
  match matchSystem cs with
  | some (gpu, api, a, b, c, d) => some (.system gpu api a b c d)
  | none => none

/-- The `RuntimeError` dataclass of the source (an `Exception` carrying the
failed command, its exit code and both captured streams). -/
structure NtcFailure where
  command : List String
  returncode : Int
  stdout : String
  stderr : String
deriving DecidableEq

/-- The Python exceptions the modelled code can raise. -/
inductive PyErr where
  | valueError (msg : String)
  | indexError
  | runtimeError (e : NtcFailure)
deriving DecidableEq

/-- Equality of `Except` values is decidable when it is for both components. -/
instance {ε α : Type} [DecidableEq ε] [DecidableEq α] : DecidableEq (Except ε α) := fun x y =>
  match x, y with
  | .ok a, .ok b => if h : a = b then .isTrue (by rw [h]) else .isFalse (by simp [h])
  | .error a, .error b => if h : a = b then .isTrue (by rw [h]) else .isFalse (by simp [h])
  | .ok _, .error _ => .isFalse (by simp)
  | .error _, .ok _ => .isFalse (by simp)

/-- Numeric value of a digit character. -/
def digitVal (c : Char) : Nat := c.toNat - '0'.toNat

/-- Value of a nonempty digit string, as computed by Python `int(s)`. -/
def digitsVal (cs : List Char) : Nat := cs.foldl (fun a c => 10 * a + digitVal c) 0

/-- Python `float(s)` on a string matched by `[0-9\.]+`: accepted iff it has at
least one digit and at most one dot (so `'1.2.3'` and `'.'` raise
`ValueError`), with the exact decimal value. -/
def parseDec (cs : List Char) : Option ℚ :=
  if cs.any isDigitCh && cs.count '.' ≤ 1 && cs.all isNumDotCh then
    let ip := cs.takeWhile (fun c => c ≠ '.')
    let fp := (cs.dropWhile (fun c => c ≠ '.')).drop 1
    some ((digitsVal ip : ℚ) + (digitsVal fp : ℚ) / ((10 : ℚ) ^ fp.length))
  else none

/-- Python `float(group)` for a `[0-9\.]+` group: a malformed number raises
`ValueError`. -/
def pyFloatQ (cs : List Char) : Except PyErr ℚ :=
  match parseDec cs with
  | some q => .ok q
  | none => .error (.valueError ("could not convert string to float: " ++ String.mk cs))

/-- Python `float(group)` for a `[0-9\.]+|inf` group: the token `inf` yields the
positive-infinity float value. -/
def pyFloatP (cs : List Char) : Except PyErr PFloat :=
  if cs = "inf".toList then .ok .inf else (pyFloatQ cs).map .fin

/-- The `LatentShape` dataclass. -/
structure LatentShape where
  gridSizeScale : Int
  highResFeatures : Int
  highResQuantBits : Int
  lowResFeatures : Int
  lowResQuantBits : Int
deriving DecidableEq

/-- The `CompressionRun` dataclass: one experiment sub-run with its learning
curve of `(steps, ms/step, psnr)` samples.  `learningCurve = none` models the
Python default `None`; the code only ever stores nonempty lists. -/
structure CompressionRun where
  bitsPerPixel : Option ℚ := none
  learningCurve : Option (List (Nat × ℚ × PFloat)) := none
deriving DecidableEq

/-- The `Result` dataclass, field for field.  Optional fields default to `none`
(Python `None`), distinguishing "never reported" from a reported zero. -/
structure Result where
  elapsedTime : ℚ := 0
  overallPsnr : Option PFloat := none
  overallPsnrFP8 : Option PFloat := none
  perMipPsnr : Option (List PFloat) := none
  bitsPerPixel : Option ℚ := none
  combinedBcPsnr : Option PFloat := none
  combinedBcBitsPerPixel : Option ℚ := none
  compressionRuns : Option (List CompressionRun) := none
  decompressionTime : Option ℚ := none
  savedFileSize : Option Nat := none
  savedFileBpp : Option ℚ := none
  gpuName : String := ""
  graphicsApi : String := ""
  gpuFeatures : Option (List String) := none
  dimensions : Option (Nat × Nat) := none
  channels : Option Nat := none
  mipLevels : Option Nat := none
  latentShape : Option LatentShape := none
  networkVersion : String := ""
deriving DecidableEq

/-- `_create_or_append_list`: start a one-element list if the field was `None`,
otherwise append. -/
def createOrAppend (lst : Option (List α)) (x : α) : List α :=
  match lst with
  | none => [x]
  | some l => l ++ [x]

/-- Python truthiness of the `Optional[List]` field `learningCurve`
(`None` and `[]` are falsy). -/
def curveTruthy (lst : Option (List α)) : Bool :=
  match lst with
  | none => false
  | some [] => false
  | some (_ :: _) => true

/-- Number of recorded learning-curve samples. -/
def curveLen (lst : Option (List α)) : Nat :=
  match lst with
  | none => 0
  | some l => l.length

/-- The per-job parser state of the `run()` loop: the `Result` under
construction and the `CompressionRun` under construction. -/
abbrev PState := Result × CompressionRun

/-- The `gpuFeatures` list built by the `_systemRegex` branch from the four
indicator letters. -/
def sysFeatures (a b c d : Char) : List String :=
  (if a = 'Y' then ["DP4a"] else []) ++ (if b = 'Y' then ["FP16"] else [])
    ++ (if c = 'Y' then ["CoopVecInt8"] else []) ++ (if d = 'Y' then ["CoopVecFP8"] else [])

/-- The body of the matched branch of the `run()` loop for one classified line
(source lines 267-325): field updates and `float`/`int` conversions, with a
failed `float` conversion raising `ValueError` out of the whole loop. -/
def applyEvent (st : PState) (e : Event) : Except PyErr PState :=
  let result := st.1
  let compressionRun := st.2
  match e with
  | .baseRate bpp => do
    let v ← pyFloatQ bpp
    pure ({ result with bitsPerPixel := some v }, compressionRun)
  | .selectedRate bpp psnr => do
    let v ← pyFloatQ bpp
    let p ← pyFloatP psnr
    pure ({ result with bitsPerPixel := some v, overallPsnr := some p }, compressionRun)
  | .bcQuality psnr bpp => do
    let p ← pyFloatP psnr
    let v ← pyFloatQ bpp
    pure ({ result with combinedBcPsnr := some p, combinedBcBitsPerPixel := some v },
      compressionRun)
  | .cudaDecompTime ms => do
    let v ← pyFloatQ ms
    pure ({ result with decompressionTime := some v }, compressionRun)
  | .dims w h ch mips =>
    pure ({ result with
      dimensions := some (digitsVal w, digitsVal h),
      channels := some (digitsVal ch),
      mipLevels := some (digitsVal mips) }, compressionRun)
  | .experiment _ bpp =>
    let result :=
      if curveTruthy compressionRun.learningCurve then
        { result with compressionRuns := some (createOrAppend result.compressionRuns compressionRun) }
      else result
    do
      let v ← pyFloatQ bpp
      pure (result, { bitsPerPixel := some v, learningCurve := none })
  | .fileSize bytes bpp => do
    let v ← pyFloatQ bpp
    pure ({ result with
      savedFileSize := some (digitsVal bytes),
      savedFileBpp := some v }, compressionRun)
  | .graphicsDecompTime ms => do
    let v ← pyFloatQ ms
    pure ({ result with decompressionTime := some v }, compressionRun)
  | .latentShape gss hrf lrf hrqb lrqb =>
    pure ({ result with
      latentShape := some
        { gridSizeScale := digitsVal gss, highResFeatures := digitsVal hrf,
          highResQuantBits := digitsVal hrqb, lowResFeatures := digitsVal lrf,
          lowResQuantBits := digitsVal lrqb } }, compressionRun)
  | .mip _ psnr => do
    let p ← pyFloatP psnr
    pure ({ result with perMipPsnr := some (createOrAppend result.perMipPsnr p) },
      compressionRun)
  | .networkVersion ver =>
    pure ({ result with networkVersion := String.mk ver }, compressionRun)
  | .overallPsnr ty psnr => do
    let p ← pyFloatP psnr
    if ty = "FP8".toList then
      pure ({ result with overallPsnrFP8 := some p }, compressionRun)
    else
      pure ({ result with overallPsnr := some p }, compressionRun)
  | .trainingStep steps ms psnr => do
    let mv ← pyFloatQ ms
    let p ← pyFloatP psnr
    pure (result, { compressionRun with
      learningCurve := some (createOrAppend compressionRun.learningCurve
        (digitsVal steps, mv, p)) })
  | .system gpu api a b c d =>
    pure ({ result with
      gpuName := String.mk gpu,
      graphicsApi := String.mk api,
      gpuFeatures := some (sysFeatures a b c d) }, compressionRun)

/-- One iteration of the `run()` loop: classify the line and, if some pattern
matched, execute that branch; unrecognized lines are ignored. -/
def processLine (st : PState) (cs : List Char) : Except PyErr PState :=
  match classify cs with
  | none => .ok st
  | some e => applyEvent st e

/-- The trailing seal of `run()` (source lines 327-328): append the in-progress
`CompressionRun` iff it has recorded at least one sample. -/
def finishParse (st : PState) : Result :=
  if curveTruthy st.2.learningCurve then
    { st.1 with compressionRuns := some (createOrAppend st.1.compressionRuns st.2) }
  else st.1

/-- The whole parsing phase of `run()`: fold the loop body over the output
lines starting from the given initial `Result`, then seal. -/
def runParse (init : Result) (lines : List (List Char)) : Except PyErr Result := do
  let st ← lines.foldlM processLine (init, {})
  pure (finishParse st)

/-- Python `str.splitlines` restricted to `'\n'` separators: split on newlines,
with no trailing empty line for a newline-terminated string. -/
def splitLinesGo : List Char → List Char → List (List Char)
  | [], [] => []
  | [], acc => [acc.reverse]
  | '\n' :: rest, acc => acc.reverse :: splitLinesGo rest []
  | c :: rest, acc => splitLinesGo rest (c :: acc)

/-- `output.stdout.splitlines()` as used by the `run()` loop. -/
def splitLines (s : String) : List (List Char) := splitLinesGo s.toList []

/-- The `Arguments` dataclass, field for field and in declaration order (which
is the order `get_command_line` iterates `self.__dict__`).  `Optional` fields
default to `none` (Python `None`); plain string fields default to `""`;
`customArguments` is a string that a caller may also set to `None`, which the
code guards for, and `dimensions` is declared `str` but defaults to `None`. -/
structure Arguments where
  tool : String
  customArguments : Option String := some ""
  graphicsApi : String := ""
  noCoopVec : Bool := false
  noCoopVecInt8 : Bool := false
  noCoopVecFP8 : Bool := false
  noDP4a : Bool := false
  noFloat16 : Bool := false
  adapter : Option Int := none
  bcFormat : String := ""
  bcPsnrThreshold : Option ℚ := none
  bcPsnrOffset : Option ℚ := none
  bcQuality : Option Int := none
  benchmark : Option Int := none
  bitsPerPixel : Option ℚ := none
  compress : Bool := false
  cudaDevice : Option Int := none
  debug : Bool := false
  decompress : Bool := false
  describe : Bool := false
  dimensions : Option String := none
  discardMaskedOutPixels : Bool := false
  experimentalKnob : Option ℚ := none
  generateMips : Bool := false
  gridLearningRate : Option ℚ := none
  imageFormat : String := ""
  kPixelsPerBatch : Option Int := none
  latentShape : Option LatentShape := none
  listAdapters : Bool := false
  listCudaDevices : Bool := false
  loadCompressed : String := ""
  loadImages : String := ""
  loadManifest : String := ""
  loadMips : Bool := false
  matchBcPsnr : Bool := false
  maxBcPsnr : Option ℚ := none
  maxBitsPerPixel : Option ℚ := none
  minBcPsnr : Option ℚ := none
  networkLearningRate : Option ℚ := none
  networkVersion : String := ""
  optimizeBC : Bool := false
  randomSeed : Option Int := none
  saveCompressed : String := ""
  saveImages : String := ""
  saveMips : Bool := false
  stableTraining : Bool := false
  stepsPerIteration : Option Int := none
  targetPsnr : Option ℚ := none
  trainingSteps : Option Int := none
deriving DecidableEq

/-- Splitting on every occurrence of a separator character, keeping empty
segments — the behaviour of Python `s.split(sep)` for a one-character `sep`
(so `''.split(' ') = ['']`). -/
def splitOnCharGo (sep : Char) : List Char → List Char → List (List Char)
  | [], acc => [acc.reverse]
  | c :: rest, acc =>
    if c = sep then acc.reverse :: splitOnCharGo sep rest []
    else splitOnCharGo sep rest (c :: acc)

/-- Python `s.split(' ')` as used for `customArguments`. -/
def pySplitSpace (s : String) : List String :=
  (splitOnCharGo ' ' s.toList []).map String.mk

/-- Python `str(x)` for the float-typed argument fields.  The exact text of a
rendered numeric argument is irrelevant to every claim (what matters is that
the same rendering is both passed to the process and recorded in the failure),
so Python's float repr is not modelled digit for digit. -/
def pyFloatStr (q : ℚ) : String :=
  if q.den = 1 then toString q.num ++ ".0" else toString q.num ++ "/" ++ toString q.den

/-- Rendering of an optional int-valued parameter: `['--name', str(v)]` if set. -/
def optIntArg (name : String) : Option Int → List String
  | none => []
  | some v => ["--" ++ name, toString v]

/-- Rendering of an optional float-valued parameter. -/
def optFloatArg (name : String) : Option ℚ → List String
  | none => []
  | some v => ["--" ++ name, pyFloatStr v]

/-- Rendering of a string-valued parameter: skipped when empty. -/
def strArg (name : String) (s : String) : List String :=
  if s = "" then [] else ["--" ++ name, s]

/-- Rendering of a boolean switch. -/
def boolArg (name : String) (b : Bool) : List String :=
  if b then ["--" ++ name] else []

/-- `Arguments.get_command_line` (source lines 124-167): the tool path followed
by each field's rendering, in field declaration order.  `customArguments` is
`value.split(' ')` when not `None` (so the default `''` contributes a single
empty argument, exactly as in Python); an unrecognized `graphicsApi` raises
`ValueError`; a set `latentShape` expands to its five members in their own
declaration order. -/
def get_command_line (a : Arguments) : Except PyErr (List String) := do
  let gfx ←
    match a.graphicsApi with
    | "vk" => Except.ok ["--vk"]
    | "dx12" => Except.ok ["--dx12"]
    | "" => Except.ok []
    | s => Except.error (.valueError ("Unrecognized graphicsApi = " ++ s))
  Except.ok ([a.tool]
    ++ (match a.customArguments with
        | none => []
        | some s => pySplitSpace s)
    ++ gfx
    ++ (if a.noCoopVec then ["--no-coopVec"] else [])
    ++ (if a.noCoopVecInt8 then ["--no-coopVecInt8"] else [])
    ++ (if a.noCoopVecFP8 then ["--no-coopVecFP8"] else [])
    ++ (if a.noDP4a then ["--no-dp4a"] else [])
    ++ (if a.noFloat16 then ["--no-float16"] else [])
    ++ optIntArg "adapter" a.adapter
    ++ strArg "bcFormat" a.bcFormat
    ++ optFloatArg "bcPsnrThreshold" a.bcPsnrThreshold
    ++ optFloatArg "bcPsnrOffset" a.bcPsnrOffset
    ++ optIntArg "bcQuality" a.bcQuality
    ++ optIntArg "benchmark" a.benchmark
    ++ optFloatArg "bitsPerPixel" a.bitsPerPixel
    ++ boolArg "compress" a.compress
    ++ optIntArg "cudaDevice" a.cudaDevice
    ++ boolArg "debug" a.debug
    ++ boolArg "decompress" a.decompress
    ++ boolArg "describe" a.describe
    ++ (match a.dimensions with
        | none => []
        | some s => strArg "dimensions" s)
    ++ boolArg "discardMaskedOutPixels" a.discardMaskedOutPixels
    ++ optFloatArg "experimentalKnob" a.experimentalKnob
    ++ boolArg "generateMips" a.generateMips
    ++ optFloatArg "gridLearningRate" a.gridLearningRate
    ++ strArg "imageFormat" a.imageFormat
    ++ optIntArg "kPixelsPerBatch" a.kPixelsPerBatch
    ++ (match a.latentShape with
        | none => []
        | some ls =>
          ["--gridSizeScale", toString ls.gridSizeScale,
           "--highResFeatures", toString ls.highResFeatures,
           "--highResQuantBits", toString ls.highResQuantBits,
           "--lowResFeatures", toString ls.lowResFeatures,
           "--lowResQuantBits", toString ls.lowResQuantBits])
    ++ boolArg "listAdapters" a.listAdapters
    ++ boolArg "listCudaDevices" a.listCudaDevices
    ++ strArg "loadCompressed" a.loadCompressed
    ++ strArg "loadImages" a.loadImages
    ++ strArg "loadManifest" a.loadManifest
    ++ boolArg "loadMips" a.loadMips
    ++ boolArg "matchBcPsnr" a.matchBcPsnr
    ++ optFloatArg "maxBcPsnr" a.maxBcPsnr
    ++ optFloatArg "maxBitsPerPixel" a.maxBitsPerPixel
    ++ optFloatArg "minBcPsnr" a.minBcPsnr
    ++ optFloatArg "networkLearningRate" a.networkLearningRate
    ++ strArg "networkVersion" a.networkVersion
    ++ boolArg "optimizeBC" a.optimizeBC
    ++ optIntArg "randomSeed" a.randomSeed
    ++ strArg "saveCompressed" a.saveCompressed
    ++ strArg "saveImages" a.saveImages
    ++ boolArg "saveMips" a.saveMips
    ++ boolArg "stableTraining" a.stableTraining
    ++ optIntArg "stepsPerIteration" a.stepsPerIteration
    ++ optFloatArg "targetPsnr" a.targetPsnr
    ++ optIntArg "trainingSteps" a.trainingSteps)

/-- The outcome of the spawned external process: exit code and both captured
text streams (the `subprocess.run(..., capture_output=True, text=True)` value). -/
structure ProcOutput where
  returncode : Int
  stdout : String
  stderr : String
deriving DecidableEq

/-- The `run(args)` function (source lines 247-330), with the external process's
behaviour supplied as `output` and the measured wall time as `elapsed`: build
the command line, fail with the `RuntimeError` record on a non-zero exit code,
otherwise parse the captured standard output starting from a `Result` whose
`bitsPerPixel` is inherited from the arguments. -/
def ntcRun (args : Arguments) (elapsed : ℚ) (output : ProcOutput) : Except PyErr Result := do
  let command ← get_command_line args
  if output.returncode ≠ 0 then
    Except.error (.runtimeError
      { command := command, returncode := output.returncode,
        stdout := output.stdout, stderr := output.stderr })
  else
    runParse { elapsedTime := elapsed, bitsPerPixel := args.bitsPerPixel }
      (splitLines output.stdout)

/-! ## The concurrent dispatcher

`process_concurrent_tasks(tasks, devices, ready)` (source lines 333-433) is
modelled as a labelled transition system.  Each constructor of `DStep` is one
atomic action of `_thread_function` — atomic either because the source performs
it under `mutex`, or because it reads or writes a single shared variable — or
the SIGINT handler's write to `terminate`.  A worker's progress through its
loop body is a sequence of such actions, so arbitrary interleavings of the
worker threads are exactly the traces of the system.  The external behaviour
(whether `run` raises for a given task on a given device, and whether the
user's `ready` callback raises for a given task at a given completion count) is
a parameter of the system. -/

/-- The type of task list elements.  Validation (source lines 408-413) inspects
the Python dynamic type: an `Arguments`, a tuple (whose later members are an
arbitrary payload), or any other value. -/
inductive PyTask where
  | args (a : Arguments)
  | tup (elems : List PyTask)
  | other

/-- The job-list validation loop of `process_concurrent_tasks` (source lines
407-413), run before any thread is started: a tuple with a non-`Arguments`
first member or a non-tuple non-`Arguments` element raises `ValueError`; an
empty tuple raises `IndexError` from `task[0]`. -/
def validateTasks : List PyTask → Except PyErr Unit
  | [] => .ok ()
  | t :: rest =>
    match t with
    | .args _ => validateTasks rest
    | .tup [] => .error .indexError
    | .tup (.args _ :: _) => validateTasks rest
    | .tup (_ :: _) =>
      .error (.valueError "Task is a tuple but its first member is not Arguments")
    | .other => .error (.valueError "Task is neither a tuple nor Arguments.")

/-- Whether a task has the shape the dispatcher requires: an `Arguments`, or a
tuple whose first member is an `Arguments`. -/
def goodTask : PyTask → Bool
  | .args _ => true
  | .tup (.args _ :: _) => true
  | _ => false

/-- Where a worker thread is inside the `_thread_function` loop. -/
inductive WPhase (T : Type) where
  | atLoop : WPhase T
  | claiming : WPhase T
  | running : T → WPhase T
  | calling : T → WPhase T
  | stopped : WPhase T
deriving DecidableEq

/-- One worker thread: the device index it was launched with (the `args` of
`threading.Thread`) and its current phase. -/
structure DWorker (T : Type) where
  device : Int
  phase : WPhase T
deriving DecidableEq

/-- The externally determined behaviour of one dispatcher run: `runFails t d`
is true when `run` raises for task `t` bound to device `d` (a non-zero process
exit or any other exception), and `cbFails t n` is true when the `ready`
callback raises for task `t` invoked with `tasksCompleted = n`. -/
structure DSys (T : Type) where
  runFails : T → Int → Bool
  cbFails : T → Nat → Bool

/-- The shared state of one `process_concurrent_tasks` call: the caller's task
list (mutated in place), the `terminate` flag, the `tasksCompleted` counter,
the `originalTaskCount` snapshot, the worker threads, and a history of the
`(originalTaskCount, tasksCompleted)` argument pairs passed to `ready`. -/
structure DConfig (T : Type) where
  tasks : List T
  terminate : Bool
  tasksCompleted : Nat
  originalTaskCount : Nat
  calls : List (Nat × Nat)
  workers : List (DWorker T)
deriving DecidableEq

/-- Labels: which thread takes the step (`work i` for worker `i`, `sigint` for
the signal handler). -/
inductive DLbl where
  | work : Nat → DLbl
  | sigint : DLbl
deriving DecidableEq

/-- Does a phase hold a claimed, not yet completed task? -/
def holdsTask : WPhase T → Bool
  | .running _ => true
  | .calling _ => true
  | _ => false

/-- Atomic steps of the dispatcher.  `checkStop`/`checkGo` are the
`while not terminate` test; `claimEmpty`/`claimTake` are the mutex-protected
pop of `tasks[0]` with `break` on an empty list; `runFail`/`runOk` are the
return of `run(args)` (any exception sets `terminate` and ends the thread);
`cbOk`/`cbFail` are the mutex-protected counter increment plus `ready`
invocation (an exception from `ready` sets `terminate` and ends the thread);
`sigint` is the SIGINT handler setting `terminate`. -/
inductive DStep (S : DSys T) : DLbl → DConfig T → DConfig T → Prop where
  | sigint (c : DConfig T) :
      DStep S .sigint c { c with terminate := true }
  | checkStop (c : DConfig T) (i : Nat) (w : DWorker T)
      (hw : c.workers[i]? = some w) (hp : w.phase = .atLoop)
      (ht : c.terminate = true) :
      DStep S (.work i) c { c with workers := c.workers.set i { w with phase := .stopped } }
  | checkGo (c : DConfig T) (i : Nat) (w : DWorker T)
      (hw : c.workers[i]? = some w) (hp : w.phase = .atLoop)
      (ht : c.terminate = false) :
      DStep S (.work i) c { c with workers := c.workers.set i { w with phase := .claiming } }
  | claimEmpty (c : DConfig T) (i : Nat) (w : DWorker T)
      (hw : c.workers[i]? = some w) (hp : w.phase = .claiming)
      (he : c.tasks = []) :
      DStep S (.work i) c { c with workers := c.workers.set i { w with phase := .stopped } }
  | claimTake (c : DConfig T) (i : Nat) (w : DWorker T) (t : T) (rest : List T)
      (hw : c.workers[i]? = some w) (hp : w.phase = .claiming)
      (he : c.tasks = t :: rest) :
      DStep S (.work i) c { c with
        tasks := rest,
        workers := c.workers.set i { w with phase := .running t } }
  | runFail (c : DConfig T) (i : Nat) (w : DWorker T) (t : T)
      (hw : c.workers[i]? = some w) (hp : w.phase = .running t)
      (hf : S.runFails t w.device = true) :
      DStep S (.work i) c { c with
        terminate := true,
        workers := c.workers.set i { w with phase := .stopped } }
  | runOk (c : DConfig T) (i : Nat) (w : DWorker T) (t : T)
      (hw : c.workers[i]? = some w) (hp : w.phase = .running t)
      (hf : S.runFails t w.device = false) :
      DStep S (.work i) c { c with workers := c.workers.set i { w with phase := .calling t } }
  | cbOk (c : DConfig T) (i : Nat) (w : DWorker T) (t : T)
      (hw : c.workers[i]? = some w) (hp : w.phase = .calling t)
      (hf : S.cbFails t (c.tasksCompleted + 1) = false) :
      DStep S (.work i) c { c with
        tasksCompleted := c.tasksCompleted + 1,
        calls := c.calls ++ [(c.originalTaskCount, c.tasksCompleted + 1)],
        workers := c.workers.set i { w with phase := .atLoop } }
  | cbFail (c : DConfig T) (i : Nat) (w : DWorker T) (t : T)
      (hw : c.workers[i]? = some w) (hp : w.phase = .calling t)
      (hf : S.cbFails t (c.tasksCompleted + 1) = true) :
      DStep S (.work i) c { c with
        terminate := true,
        tasksCompleted := c.tasksCompleted + 1,
        calls := c.calls ++ [(c.originalTaskCount, c.tasksCompleted + 1)],
        workers := c.workers.set i { w with phase := .stopped } }

/-- A finite trace of atomic steps. -/
inductive DSteps (S : DSys T) : List DLbl → DConfig T → DConfig T → Prop where
  | nil (c : DConfig T) : DSteps S [] c c
  | cons {l : DLbl} {ls : List DLbl} {c₁ c₂ c₃ : DConfig T} :
      DStep S l c₁ c₂ → DSteps S ls c₂ c₃ → DSteps S (l :: ls) c₁ c₃

/-- The state of `process_concurrent_tasks` right after launching one worker
thread per device: the `originalTaskCount = len(tasks)` snapshot is taken, the
counter and flag are fresh, and every worker is at its loop head. -/
def initConfig (tasks : List T) (devices : List Int) : DConfig T :=
  { tasks := tasks
    terminate := false
    tasksCompleted := 0
    originalTaskCount := tasks.length
    calls := []
    workers := devices.map fun d => { device := d, phase := .atLoop } }

/-- `process_concurrent_tasks` up to thread launch: validate the task list and,
only if validation passes, start the dispatch system in its initial state.  A
validation error is raised before any thread or process starts, so no
transition system exists for such a call. -/
def processConcurrentTasksStart (tasks : List PyTask) (devices : List Int) :
    Except PyErr (DConfig PyTask) :=
  match validateTasks tasks with
  | .error e => .error e
  | .ok _ => .ok (initConfig tasks devices)

/-- All workers have reached the end of `_thread_function`; the dispatcher's
`join` loop finishes and `process_concurrent_tasks` returns `terminate`. -/
def allStopped (c : DConfig T) : Prop := ∀ w ∈ c.workers, w.phase = WPhase.stopped

/-- Structural invariant of every reachable dispatcher state, regardless of
failures or cancellation: the original-count snapshot never changes, the number
of workers never changes, the task list is always a tail of the caller's
original list (claims pop the front in place), every callback invocation so far
received the original count, and claimed-plus-completed-plus-pending tasks
never exceed the original count. -/
structure DReachInv (tasks0 : List T) (devices : List Int) (c : DConfig T) : Prop where
  orig : c.originalTaskCount = tasks0.length
  wlen : c.workers.length = devices.length
  tail : ∃ k, k ≤ tasks0.length ∧ c.tasks = tasks0.drop k
  callsFst : ∀ x ∈ c.calls, x.1 = tasks0.length
  bound : c.tasksCompleted + c.tasks.length
      + c.workers.countP (fun w => holdsTask w.phase) ≤ tasks0.length

/-- Invariant of a run with no process failures, no callback exceptions and no
SIGINT: the flag stays clear, completed-plus-claimed-plus-pending tasks exactly
account for the original list, the callback history is exactly
`(N, 1), (N, 2), ..., (N, tasksCompleted)` in order, and a worker only ever
stops after seeing the task list empty (so once any worker has stopped, the
list is and stays empty). -/
structure DNoFailInv (tasks0 : List T) (devices : List Int) (c : DConfig T) : Prop where
  term : c.terminate = false
  orig : c.originalTaskCount = tasks0.length
  comp : c.tasksCompleted + c.tasks.length
      + c.workers.countP (fun w => holdsTask w.phase) = tasks0.length
  callsEq : c.calls = (List.range c.tasksCompleted).map (fun j => (tasks0.length, j + 1))
  stopEmpty : ∀ w ∈ c.workers, w.phase = WPhase.stopped → c.tasks = []

/-- A system in which no job fails and no callback raises. -/
def demoSys : DSys Unit :=
  { runFails := fun _ _ => false, cbFails := fun _ _ => false }

/-- One worker processing the single job of a one-job list: loop check, claim,
run, callback, loop check, empty-queue stop. -/
def demoTrace : List DLbl :=
  [.work 0, .work 0, .work 0, .work 0, .work 0, .work 0]

/-- The final state of that run. -/
def demoFinal : DConfig Unit :=
  { tasks := []
    terminate := false
    tasksCompleted := 1
    originalTaskCount := 1
    calls := [(1, 1)]
    workers := [{ device := 0, phase := .stopped }] }

/-- A system whose callback always raises. -/
def demoSysCb : DSys Unit :=
  { runFails := fun _ _ => false, cbFails := fun _ _ => true }

/-- A state with one worker about to invoke the callback. -/
def demoCbCfg : DConfig Unit :=
  { tasks := []
    terminate := false
    tasksCompleted := 0
    originalTaskCount := 1
    calls := []
    workers := [{ device := 0, phase := .calling () }] }

/-- The state after that worker's callback raises. -/
def demoCbCfg2 : DConfig Unit :=
  { tasks := []
    terminate := true
    tasksCompleted := 1
    originalTaskCount := 1
    calls := [(1, 1)]
    workers := [{ device := 0, phase := .stopped }] }

/-- The event sequence of the specification's accumulator example:
`ExperimentStart(bpp=2.0)`, two `TrainingStep`s, `ExperimentStart(bpp=4.0)`,
one `TrainingStep`. -/
def demoLines : List (List Char) :=
  ["Experiment 0: 2.0 bpp".toList,
   "Training: 1000 steps, 5.0 ms/step, intermediate PSNR: 30.0 dB".toList,
   "Training: 2000 steps, 5.0 ms/step, intermediate PSNR: 30.0 dB".toList,
   "Experiment 1: 4.0 bpp".toList,
   "Training: 1000 steps, 5.0 ms/step, intermediate PSNR: 30.0 dB".toList]

/-- A parser state holding one recorded training-step sample, used to witness
the sealing rule. -/
def demoPState : PState :=
  ({}, { bitsPerPixel := none, learningCurve := some [(1000, 5, PFloat.fin 30)] })

/-- The rate value a line contributes, if any: only the BaseRate and
SelectedRate branches of the `run()` loop assign `result.bitsPerPixel`, taking
`float` of the line's `bpp` group. -/
def rateOfLine (cs : List Char) : Option ℚ :=
  match classify cs with
  | some (.baseRate b) => parseDec b
  | some (.selectedRate b _) => parseDec b
  | _ => none

/-- The value assigned by the last rate-setting line of an output, if any. -/
def lastRate : List (List Char) → Option ℚ
  | [] => none
  | l :: ls =>
    match lastRate ls with
    | some q => some q
    | none => rateOfLine l

/-- Arguments with a pre-supplied rate of 4, for the C8 counterexample. -/
def c8args : Arguments := { tool := "t", bitsPerPixel := some 4 }

/-- A successful process output whose one line sets the rate to the same
value 4. -/
def c8out : ProcOutput :=
  { returncode := 0, stdout := "Base compression rate: --bitsPerPixel 4", stderr := "" }

/-- A zero-exit process output whose single line matches the BaseRate pattern
with the malformed number `1.2.3` in its `bpp` group. -/
def c4out : ProcOutput :=
  { returncode := 0, stdout := "Base compression rate: --bitsPerPixel 1.2.3", stderr := "" }

/-! ## Lemmas, claim theorems, counterexamples and witnesses -/

@[simp] theorem exceptBind_ok {ε α β : Type} (a : α) (f : α → Except ε β) :
    (Except.ok a >>= f) = f a := rfl

@[simp] theorem exceptBind_error {ε α β : Type} (e : ε) (f : α → Except ε β) :
    ((Except.error e : Except ε α) >>= f) = Except.error e := rfl

@[simp] theorem exceptPure_eq {ε α : Type} (a : α) :
    (pure a : Except ε α) = Except.ok a := rfl

@[simp] theorem holdsTask_atLoop : holdsTask (.atLoop : WPhase T) = false := rfl

@[simp] theorem holdsTask_claiming : holdsTask (.claiming : WPhase T) = false := rfl

@[simp] theorem holdsTask_stopped : holdsTask (.stopped : WPhase T) = false := rfl

@[simp] theorem holdsTask_running (t : T) : holdsTask (.running t) = true := rfl

@[simp] theorem holdsTask_calling (t : T) : holdsTask (.calling t) = true := rfl

/-- Replacing the element at a valid index changes `countP` by the difference
of the predicate on the old and new elements. -/
theorem countP_set_balance (p : α → Bool) :
    ∀ (l : List α) (i : Nat) (a b : α), l[i]? = some b →
      (l.set i a).countP p + (if p b then 1 else 0)
        = l.countP p + (if p a then 1 else 0)
  | [], i, a, b, h => by simp at h
  | x :: xs, 0, a, b, h => by
    simp only [List.getElem?_cons_zero, Option.some.injEq] at h
    subst h
    simp only [List.set_cons_zero, List.countP_cons]
    omega
  | x :: xs, i + 1, a, b, h => by
    simp only [List.getElem?_cons_succ] at h
    have ih := countP_set_balance p xs i a b h
    simp only [List.set_cons_succ, List.countP_cons]
    omega

/-- The `terminate` flag is monotonic across any single atomic step: no step
resets it to `False`. -/
theorem dStep_terminate_mono {S : DSys T} {l : DLbl} {c c' : DConfig T}
    (h : DStep S l c c') (ht : c.terminate = true) : c'.terminate = true := by
  cases h <;> simp_all

/-- The `terminate` flag is monotonic across any trace. -/
theorem dSteps_terminate_mono {S : DSys T} {tr : List DLbl} {c c' : DConfig T}
    (h : DSteps S tr c c') (ht : c.terminate = true) : c'.terminate = true := by
  induction h with
  | nil => exact ht
  | cons hstep _ ih => exact ih (dStep_terminate_mono hstep ht)

/-- A stopped worker stays stopped (with its device unchanged) across any
single step: `return`/`break` is terminal for `_thread_function`. -/
theorem dStep_stopped_stable {S : DSys T} {l : DLbl} {c c' : DConfig T} {i : Nat} {d : Int}
    (h : DStep S l c c') (hw : c.workers[i]? = some { device := d, phase := .stopped }) :
    c'.workers[i]? = some { device := d, phase := .stopped } := by
  cases h with
  | sigint c => exact hw
  | checkStop c j w hwj hp ht =>
    rcases eq_or_ne j i with rfl | hne
    · rw [hw] at hwj; cases hwj; simp at hp
    · simpa [List.getElem?_set_ne hne] using hw
  | checkGo c j w hwj hp ht =>
    rcases eq_or_ne j i with rfl | hne
    · rw [hw] at hwj; cases hwj; simp at hp
    · simpa [List.getElem?_set_ne hne] using hw
  | claimEmpty c j w hwj hp he =>
    rcases eq_or_ne j i with rfl | hne
    · rw [hw] at hwj; cases hwj; simp at hp
    · simpa [List.getElem?_set_ne hne] using hw
  | claimTake c j w t rest hwj hp he =>
    rcases eq_or_ne j i with rfl | hne
    · rw [hw] at hwj; cases hwj; simp at hp
    · simpa [List.getElem?_set_ne hne] using hw
  | runFail c j w t hwj hp hf =>
    rcases eq_or_ne j i with rfl | hne
    · rw [hw] at hwj; cases hwj; simp at hp
    · simpa [List.getElem?_set_ne hne] using hw
  | runOk c j w t hwj hp hf =>
    rcases eq_or_ne j i with rfl | hne
    · rw [hw] at hwj; cases hwj; simp at hp
    · simpa [List.getElem?_set_ne hne] using hw
  | cbOk c j w t hwj hp hf =>
    rcases eq_or_ne j i with rfl | hne
    · rw [hw] at hwj; cases hwj; simp at hp
    · simpa [List.getElem?_set_ne hne] using hw
  | cbFail c j w t hwj hp hf =>
    rcases eq_or_ne j i with rfl | hne
    · rw [hw] at hwj; cases hwj; simp at hp
    · simpa [List.getElem?_set_ne hne] using hw

/-- A stopped worker stays stopped across any trace. -/
theorem dSteps_stopped_stable {S : DSys T} {tr : List DLbl} {c c' : DConfig T} {i : Nat} {d : Int}
    (h : DSteps S tr c c') (hw : c.workers[i]? = some { device := d, phase := .stopped }) :
    c'.workers[i]? = some { device := d, phase := .stopped } := by
  induction h with
  | nil => exact hw
  | cons hstep _ ih => exact ih (dStep_stopped_stable hstep hw)

/-- The initial dispatcher state satisfies the structural invariant. -/
theorem dReachInv_init (tasks0 : List T) (devices : List Int) :
    DReachInv tasks0 devices (initConfig tasks0 devices) := by
  have hcnt : (devices.map fun d => ({ device := d, phase := .atLoop } : DWorker T)).countP
      (fun w => holdsTask w.phase) = 0 := by
    rw [List.countP_eq_zero]
    intro w hw
    rcases List.mem_map.mp hw with ⟨d, -, rfl⟩
    simp
  refine ⟨rfl, by simp [initConfig], ⟨0, Nat.zero_le _, rfl⟩, by simp [initConfig], ?_⟩
  show 0 + tasks0.length + _ ≤ tasks0.length
  rw [show (initConfig tasks0 devices).workers
      = devices.map fun d => ({ device := d, phase := .atLoop } : DWorker T) from rfl, hcnt]
  omega

/-- Every atomic step preserves the structural invariant. -/
theorem dReachInv_step {S : DSys T} {l : DLbl} {c c' : DConfig T}
    {tasks0 : List T} {devices : List Int}
    (inv : DReachInv tasks0 devices c) (h : DStep S l c c') :
    DReachInv tasks0 devices c' := by
  obtain ⟨orig, wlen, ⟨k, hk, htail⟩, callsFst, bound⟩ := inv
  cases h with
  | sigint c => exact ⟨orig, wlen, ⟨k, hk, htail⟩, callsFst, bound⟩
  | checkStop c i w hw hp ht =>
    have hbal := countP_set_balance (fun w => holdsTask w.phase) c.workers i
      { w with phase := .stopped } w hw
    refine ⟨orig, by simpa using wlen, ⟨k, hk, htail⟩, callsFst, ?_⟩
    simp only [hp, holdsTask_atLoop, holdsTask_stopped] at hbal
    show c.tasksCompleted + c.tasks.length
      + (c.workers.set i { device := w.device, phase := WPhase.stopped }).countP
        (fun w => holdsTask w.phase) ≤ tasks0.length
    omega
  | checkGo c i w hw hp ht =>
    have hbal := countP_set_balance (fun w => holdsTask w.phase) c.workers i
      { w with phase := .claiming } w hw
    refine ⟨orig, by simpa using wlen, ⟨k, hk, htail⟩, callsFst, ?_⟩
    simp only [hp, holdsTask_atLoop, holdsTask_claiming] at hbal
    show c.tasksCompleted + c.tasks.length
      + (c.workers.set i { device := w.device, phase := WPhase.claiming }).countP
        (fun w => holdsTask w.phase) ≤ tasks0.length
    omega
  | claimEmpty c i w hw hp he =>
    have hbal := countP_set_balance (fun w => holdsTask w.phase) c.workers i
      { w with phase := .stopped } w hw
    refine ⟨orig, by simpa using wlen, ⟨k, hk, htail⟩, callsFst, ?_⟩
    simp only [hp, holdsTask_claiming, holdsTask_stopped] at hbal
    show c.tasksCompleted + c.tasks.length
      + (c.workers.set i { device := w.device, phase := WPhase.stopped }).countP
        (fun w => holdsTask w.phase) ≤ tasks0.length
    omega
  | claimTake c i w t rest hw hp he =>
    have hbal := countP_set_balance (fun w => holdsTask w.phase) c.workers i
      { w with phase := .running t } w hw
    have hklt : k < tasks0.length := by
      by_contra hge
      have hnil : tasks0.drop k = [] := List.drop_eq_nil_of_le (by omega)
      rw [htail, hnil] at he
      exact absurd he (by simp)
    have htail' : rest = tasks0.drop (k + 1) := by
      have hdt : tasks0.drop (k + 1) = (tasks0.drop k).tail := by
        rw [List.tail_drop]
      rw [hdt, ← htail, he]
      rfl
    refine ⟨orig, by simpa using wlen, ⟨k + 1, by omega, htail'⟩, callsFst, ?_⟩
    simp only [hp, holdsTask_claiming, holdsTask_running] at hbal
    norm_num at hbal
    have hlen : c.tasks.length = rest.length + 1 := by rw [he]; rfl
    show c.tasksCompleted + rest.length
      + (c.workers.set i { device := w.device, phase := WPhase.running t }).countP
        (fun w => holdsTask w.phase) ≤ tasks0.length
    omega
  | runFail c i w t hw hp hf =>
    have hbal := countP_set_balance (fun w => holdsTask w.phase) c.workers i
      { w with phase := .stopped } w hw
    refine ⟨orig, by simpa using wlen, ⟨k, hk, htail⟩, callsFst, ?_⟩
    simp only [hp, holdsTask_running, holdsTask_stopped] at hbal
    norm_num at hbal
    show c.tasksCompleted + c.tasks.length
      + (c.workers.set i { device := w.device, phase := WPhase.stopped }).countP
        (fun w => holdsTask w.phase) ≤ tasks0.length
    omega
  | runOk c i w t hw hp hf =>
    have hbal := countP_set_balance (fun w => holdsTask w.phase) c.workers i
      { w with phase := .calling t } w hw
    refine ⟨orig, by simpa using wlen, ⟨k, hk, htail⟩, callsFst, ?_⟩
    simp only [hp, holdsTask_running, holdsTask_calling] at hbal
    show c.tasksCompleted + c.tasks.length
      + (c.workers.set i { device := w.device, phase := WPhase.calling t }).countP
        (fun w => holdsTask w.phase) ≤ tasks0.length
    omega
  | cbOk c i w t hw hp hf =>
    have hbal := countP_set_balance (fun w => holdsTask w.phase) c.workers i
      { w with phase := .atLoop } w hw
    refine ⟨orig, by simpa using wlen, ⟨k, hk, htail⟩, ?_, ?_⟩
    · intro x hx
      rcases List.mem_append.mp hx with hx | hx
      · exact callsFst x hx
      · simp only [List.mem_singleton] at hx
        subst hx
        exact orig
    · simp only [hp, holdsTask_calling, holdsTask_atLoop] at hbal
      norm_num at hbal
      show c.tasksCompleted + 1 + c.tasks.length
        + (c.workers.set i { device := w.device, phase := WPhase.atLoop }).countP
          (fun w => holdsTask w.phase) ≤ tasks0.length
      omega
  | cbFail c i w t hw hp hf =>
    have hbal := countP_set_balance (fun w => holdsTask w.phase) c.workers i
      { w with phase := .stopped } w hw
    refine ⟨orig, by simpa using wlen, ⟨k, hk, htail⟩, ?_, ?_⟩
    · intro x hx
      rcases List.mem_append.mp hx with hx | hx
      · exact callsFst x hx
      · simp only [List.mem_singleton] at hx
        subst hx
        exact orig
    · simp only [hp, holdsTask_calling, holdsTask_stopped] at hbal
      norm_num at hbal
      show c.tasksCompleted + 1 + c.tasks.length
        + (c.workers.set i { device := w.device, phase := WPhase.stopped }).countP
          (fun w => holdsTask w.phase) ≤ tasks0.length
      omega

/-- The structural invariant holds at the end of every trace from the initial
state. -/
theorem dReachInv_steps {S : DSys T} {tr : List DLbl} {c : DConfig T}
    {tasks0 : List T} {devices : List Int}
    (h : DSteps S tr (initConfig tasks0 devices) c) :
    DReachInv tasks0 devices c := by
  suffices H : ∀ {c₁ c₂ : DConfig T} {tr₂ : List DLbl}, DSteps S tr₂ c₁ c₂ →
      DReachInv tasks0 devices c₁ → DReachInv tasks0 devices c₂ by
    exact H h (dReachInv_init tasks0 devices)
  intro c₁ c₂ tr₂ hsteps
  induction hsteps with
  | nil => exact id
  | cons hstep _ ih => exact fun inv => ih (dReachInv_step inv hstep)

/-- The initial state satisfies the no-failure invariant. -/
theorem dNoFailInv_init (tasks0 : List T) (devices : List Int) :
    DNoFailInv tasks0 devices (initConfig tasks0 devices) := by
  have hcnt : (devices.map fun d => ({ device := d, phase := .atLoop } : DWorker T)).countP
      (fun w => holdsTask w.phase) = 0 := by
    rw [List.countP_eq_zero]
    intro w hw
    rcases List.mem_map.mp hw with ⟨d, -, rfl⟩
    simp
  refine ⟨rfl, rfl, ?_, by simp [initConfig], ?_⟩
  · show 0 + tasks0.length + _ = tasks0.length
    rw [show (initConfig tasks0 devices).workers
        = devices.map fun d => ({ device := d, phase := .atLoop } : DWorker T) from rfl, hcnt]
    omega
  · intro w hw hstop
    rcases List.mem_map.mp hw with ⟨d, -, rfl⟩
    simp at hstop

/-- A non-SIGINT atomic step of a system in which no job fails and no callback
raises preserves the no-failure invariant. -/
theorem dNoFailInv_step {S : DSys T} {l : DLbl} {c c' : DConfig T}
    {tasks0 : List T} {devices : List Int}
    (hrun : ∀ t d, S.runFails t d = false) (hcb : ∀ t n, S.cbFails t n = false)
    (hl : l ≠ DLbl.sigint)
    (inv : DNoFailInv tasks0 devices c) (h : DStep S l c c') :
    DNoFailInv tasks0 devices c' := by
  obtain ⟨term, orig, comp, callsEq, stopEmpty⟩ := inv
  cases h with
  | sigint c => exact absurd rfl hl
  | checkStop c i w hw hp ht => rw [term] at ht; cases ht
  | checkGo c i w hw hp ht =>
    have hbal := countP_set_balance (fun w => holdsTask w.phase) c.workers i
      { w with phase := .claiming } w hw
    simp only [hp, holdsTask_atLoop, holdsTask_claiming] at hbal
    refine ⟨term, orig, ?_, callsEq, ?_⟩
    · show c.tasksCompleted + c.tasks.length
        + (c.workers.set i { device := w.device, phase := WPhase.claiming }).countP
          (fun w => holdsTask w.phase) = tasks0.length
      omega
    · intro w' hw' hstop
      rcases List.mem_or_eq_of_mem_set hw' with hmem | rfl
      · exact stopEmpty w' hmem hstop
      · simp at hstop
  | claimEmpty c i w hw hp he =>
    have hbal := countP_set_balance (fun w => holdsTask w.phase) c.workers i
      { w with phase := .stopped } w hw
    simp only [hp, holdsTask_claiming, holdsTask_stopped] at hbal
    refine ⟨term, orig, ?_, callsEq, fun w' hw' hstop => he⟩
    show c.tasksCompleted + c.tasks.length
      + (c.workers.set i { device := w.device, phase := WPhase.stopped }).countP
        (fun w => holdsTask w.phase) = tasks0.length
    omega
  | claimTake c i w t rest hw hp he =>
    have hbal := countP_set_balance (fun w => holdsTask w.phase) c.workers i
      { w with phase := .running t } w hw
    simp only [hp, holdsTask_claiming, holdsTask_running] at hbal
    norm_num at hbal
    have hlen : c.tasks.length = rest.length + 1 := by rw [he]; rfl
    refine ⟨term, orig, ?_, callsEq, ?_⟩
    · show c.tasksCompleted + rest.length
        + (c.workers.set i { device := w.device, phase := WPhase.running t }).countP
          (fun w => holdsTask w.phase) = tasks0.length
      omega
    · intro w' hw' hstop
      rcases List.mem_or_eq_of_mem_set hw' with hmem | rfl
      · have : c.tasks = [] := stopEmpty w' hmem hstop
        rw [he] at this
        cases this
      · simp at hstop
  | runFail c i w t hw hp hf => rw [hrun t w.device] at hf; cases hf
  | runOk c i w t hw hp hf =>
    have hbal := countP_set_balance (fun w => holdsTask w.phase) c.workers i
      { w with phase := .calling t } w hw
    simp only [hp, holdsTask_running, holdsTask_calling] at hbal
    refine ⟨term, orig, ?_, callsEq, ?_⟩
    · show c.tasksCompleted + c.tasks.length
        + (c.workers.set i { device := w.device, phase := WPhase.calling t }).countP
          (fun w => holdsTask w.phase) = tasks0.length
      omega
    · intro w' hw' hstop
      rcases List.mem_or_eq_of_mem_set hw' with hmem | rfl
      · exact stopEmpty w' hmem hstop
      · simp at hstop
  | cbOk c i w t hw hp hf =>
    have hbal := countP_set_balance (fun w => holdsTask w.phase) c.workers i
      { w with phase := .atLoop } w hw
    simp only [hp, holdsTask_calling, holdsTask_atLoop] at hbal
    norm_num at hbal
    refine ⟨term, orig, ?_, ?_, ?_⟩
    · show c.tasksCompleted + 1 + c.tasks.length
        + (c.workers.set i { device := w.device, phase := WPhase.atLoop }).countP
          (fun w => holdsTask w.phase) = tasks0.length
      omega
    · show c.calls ++ [(c.originalTaskCount, c.tasksCompleted + 1)]
        = (List.range (c.tasksCompleted + 1)).map (fun j => (tasks0.length, j + 1))
      rw [callsEq, orig, List.range_succ, List.map_append]
      simp
    · intro w' hw' hstop
      rcases List.mem_or_eq_of_mem_set hw' with hmem | rfl
      · exact stopEmpty w' hmem hstop
      · simp at hstop
  | cbFail c i w t hw hp hf => rw [hcb t (c.tasksCompleted + 1)] at hf; cases hf

/-- The no-failure invariant holds at the end of every SIGINT-free trace of a
no-failure system from the initial state. -/
theorem dNoFailInv_steps {S : DSys T} {tr : List DLbl} {c : DConfig T}
    {tasks0 : List T} {devices : List Int}
    (hrun : ∀ t d, S.runFails t d = false) (hcb : ∀ t n, S.cbFails t n = false)
    (hsig : DLbl.sigint ∉ tr)
    (h : DSteps S tr (initConfig tasks0 devices) c) :
    DNoFailInv tasks0 devices c := by
  suffices H : ∀ {c₁ c₂ : DConfig T} {tr₂ : List DLbl}, DSteps S tr₂ c₁ c₂ →
      DLbl.sigint ∉ tr₂ → DNoFailInv tasks0 devices c₁ → DNoFailInv tasks0 devices c₂ by
    exact H h hsig (dNoFailInv_init tasks0 devices)
  intro c₁ c₂ tr₂ hsteps
  induction hsteps with
  | nil => exact fun _ => id
  | cons hstep _ ih =>
    intro hnot inv
    have hl : _ ≠ DLbl.sigint := fun heq => hnot (heq ▸ List.mem_cons_self _ _)
    exact ih (fun hmem => hnot (List.mem_cons_of_mem _ hmem))
      (dNoFailInv_step hrun hcb hl inv hstep)

/-- **C1.**  For every job list of length `N` on which `process_concurrent_tasks`
runs (with at least one worker) such that no process fails, no callback raises,
and no cancellation signal arrives, every interleaving that ends with all
workers stopped has invoked the `ready` callback exactly `N` times, passing
`tasksCompleted = 1, 2, ..., N` (each value in `1..N` exactly once, no gaps or
repeats), and the function's return value `terminate` is `false` (not
aborted). -/
theorem ntc_C1_no_failure_callback_counts {T : Type} (S : DSys T)
    (tasks : List T) (devices : List Int) (tr : List DLbl) (c : DConfig T)
    (hrun : ∀ t d, S.runFails t d = false) (hcb : ∀ t n, S.cbFails t n = false)
    (hsig : DLbl.sigint ∉ tr) (hdev : devices ≠ [])
    (hsteps : DSteps S tr (initConfig tasks devices) c)
    (hstop : allStopped c) :
    c.calls = (List.range tasks.length).map (fun j => (tasks.length, j + 1))
      ∧ c.terminate = false := by
  obtain ⟨term, orig, comp, callsEq, stopEmpty⟩ := dNoFailInv_steps hrun hcb hsig hsteps
  have hwlen : c.workers.length = devices.length := (dReachInv_steps hsteps).wlen
  have hne : c.workers ≠ [] := by
    intro hnil
    rw [hnil] at hwlen
    exact hdev (List.length_eq_zero.mp hwlen.symm)
  obtain ⟨w, hwmem⟩ := List.exists_mem_of_ne_nil c.workers hne
  have htasks : c.tasks = [] := stopEmpty w hwmem (hstop w hwmem)
  have hcnt : c.workers.countP (fun w => holdsTask w.phase) = 0 := by
    rw [List.countP_eq_zero]
    intro w' hw'
    rw [hstop w' hw']
    simp
  have hN : c.tasksCompleted = tasks.length := by
    rw [htasks, hcnt] at comp
    simpa using comp
  exact ⟨by rw [callsEq, hN], term⟩

/-- **C6.**  Throughout any run of `process_concurrent_tasks` — failures,
callback exceptions and SIGINT all allowed — the completed-task counter never
exceeds the original job count snapshotted at start, and the cancellation flag
is monotonic: no step ever resets it to `False`. -/
theorem ntc_C6_counter_bound_and_flag_monotone {T : Type} (S : DSys T)
    (tasks : List T) (devices : List Int) (tr : List DLbl) (c : DConfig T)
    (hsteps : DSteps S tr (initConfig tasks devices) c) :
    c.tasksCompleted ≤ c.originalTaskCount
      ∧ ∀ (l : DLbl) (c' : DConfig T), DStep S l c c' →
        c.terminate = true → c'.terminate = true := by
  have inv := dReachInv_steps hsteps
  refine ⟨?_, fun l c' hstep ht => dStep_terminate_mono hstep ht⟩
  rw [inv.orig]
  have := inv.bound
  omega

/-- **C7.**  If the `ready` callback raises, the worker that invoked it sets
the shared cancellation flag and stops, exactly as on a job failure; being
stopped is terminal (it claims no further jobs), the flag stays set through any
continuation of the run, and therefore the value `process_concurrent_tasks`
returns — `terminate` after all workers stop — is `true` (aborted), no
exception being propagated. -/
theorem ntc_C7_callback_exception_aborts {T : Type} (S : DSys T)
    (c c₂ : DConfig T) (i : Nat) (w : DWorker T) (t : T)
    (hw : c.workers[i]? = some w) (hp : w.phase = .calling t)
    (hf : S.cbFails t (c.tasksCompleted + 1) = true)
    (hstep : DStep S (.work i) c c₂) :
    (c₂.terminate = true
        ∧ c₂.workers[i]? = some { device := w.device, phase := .stopped })
      ∧ ∀ (tr : List DLbl) (c₃ : DConfig T), DSteps S tr c₂ c₃ →
        c₃.terminate = true
          ∧ c₃.workers[i]? = some { device := w.device, phase := .stopped } := by
  have hlt : i < c.workers.length := (List.getElem?_eq_some.mp hw).1
  cases hstep with
  | checkStop _ _ w' hw' hp' ht' =>
    rw [hw] at hw'
    injection hw' with hww
    subst hww
    rw [hp] at hp'
    simp at hp'
  | checkGo _ _ w' hw' hp' ht' =>
    rw [hw] at hw'
    injection hw' with hww
    subst hww
    rw [hp] at hp'
    simp at hp'
  | claimEmpty _ _ w' hw' hp' he' =>
    rw [hw] at hw'
    injection hw' with hww
    subst hww
    rw [hp] at hp'
    simp at hp'
  | claimTake _ _ w' t' rest hw' hp' he' =>
    rw [hw] at hw'
    injection hw' with hww
    subst hww
    rw [hp] at hp'
    simp at hp'
  | runFail _ _ w' t' hw' hp' hf' =>
    rw [hw] at hw'
    injection hw' with hww
    subst hww
    rw [hp] at hp'
    simp at hp'
  | runOk _ _ w' t' hw' hp' hf' =>
    rw [hw] at hw'
    injection hw' with hww
    subst hww
    rw [hp] at hp'
    simp at hp'
  | cbOk _ _ w' t' hw' hp' hf' =>
    rw [hw] at hw'
    injection hw' with hww
    subst hww
    rw [hp] at hp'
    simp only [WPhase.calling.injEq] at hp'
    subst hp'
    rw [hf] at hf'
    cases hf'
  | cbFail _ _ w' t' hw' hp' hf' =>
    rw [hw] at hw'
    injection hw' with hww
    subst hww
    rw [hp] at hp'
    simp only [WPhase.calling.injEq] at hp'
    subst hp'
    have hset : (c.workers.set i { device := w.device, phase := WPhase.stopped })[i]?
        = some { device := w.device, phase := WPhase.stopped } :=
      List.getElem?_set_self hlt
    refine ⟨⟨rfl, hset⟩, fun tr c₃ hsteps => ⟨dSteps_terminate_mono hsteps rfl, dSteps_stopped_stable hsteps hset⟩⟩

/-- **C10.**  The dispatcher consumes the caller's task list in place: at every
reachable state the list is exactly a tail of the original (claimed jobs are
popped from the front, nothing is copied or re-inserted), the original length
is snapshotted at start and is what every callback invocation receives, and
after a run with no failures, no callback exceptions and no SIGINT in which all
workers stopped, the caller's list is empty. -/
theorem ntc_C10_task_list_consumed_in_place {T : Type} (S : DSys T)
    (tasks : List T) (devices : List Int) (tr : List DLbl) (c : DConfig T)
    (hsteps : DSteps S tr (initConfig tasks devices) c) :
    (∃ k, k ≤ tasks.length ∧ c.tasks = tasks.drop k)
      ∧ c.originalTaskCount = tasks.length
      ∧ (∀ x ∈ c.calls, x.1 = tasks.length)
      ∧ ((∀ t d, S.runFails t d = false) → (∀ t n, S.cbFails t n = false) →
          DLbl.sigint ∉ tr → devices ≠ [] → allStopped c → c.tasks = []) := by
  have inv := dReachInv_steps hsteps
  refine ⟨inv.tail, inv.orig, inv.callsFst, ?_⟩
  intro hrun hcb hsig hdev hstop
  obtain ⟨term, orig, comp, callsEq, stopEmpty⟩ := dNoFailInv_steps hrun hcb hsig hsteps
  have hwlen : c.workers.length = devices.length := inv.wlen
  have hne : c.workers ≠ [] := by
    intro hnil
    rw [hnil] at hwlen
    exact hdev (List.length_eq_zero.mp hwlen.symm)
  obtain ⟨w, hwmem⟩ := List.exists_mem_of_ne_nil c.workers hne
  exact stopEmpty w hwmem (hstop w hwmem)

/-- **C5.**  If some element of the task list is neither an `Arguments` nor a
tuple whose first member is an `Arguments`, validation raises before any worker
thread starts: `process_concurrent_tasks` fails with that validation error and
never reaches the dispatch state, so no job runs and no process is spawned. -/
theorem ntc_C5_validation_fails_fast (tasks : List PyTask) (devices : List Int)
    (hbad : ∃ t ∈ tasks, goodTask t = false) :
    (∃ e, validateTasks tasks = .error e
        ∧ processConcurrentTasksStart tasks devices = .error e)
      ∧ ∀ c₀ : DConfig PyTask, processConcurrentTasksStart tasks devices ≠ .ok c₀ := by
  have herr : ∃ e, validateTasks tasks = .error e := by
    induction tasks with
    | nil => simp at hbad
    | cons t rest ih =>
      rcases hbad with ⟨x, hx, hxbad⟩
      rcases List.mem_cons.mp hx with rfl | hxrest
      · cases x with
        | args a => simp [goodTask] at hxbad
        | tup elems =>
          cases elems with
          | nil => exact ⟨.indexError, rfl⟩
          | cons y ys =>
            cases y with
            | args a => simp [goodTask] at hxbad
            | tup zs =>
              exact ⟨.valueError "Task is a tuple but its first member is not Arguments", rfl⟩
            | other =>
              exact ⟨.valueError "Task is a tuple but its first member is not Arguments", rfl⟩
        | other => exact ⟨.valueError "Task is neither a tuple nor Arguments.", rfl⟩
      · cases t with
        | args a =>
          obtain ⟨e, he⟩ := ih ⟨x, hxrest, hxbad⟩
          exact ⟨e, he⟩
        | tup elems =>
          cases elems with
          | nil => exact ⟨.indexError, rfl⟩
          | cons y ys =>
            cases y with
            | args a =>
              obtain ⟨e, he⟩ := ih ⟨x, hxrest, hxbad⟩
              exact ⟨e, he⟩
            | tup zs =>
              exact ⟨.valueError "Task is a tuple but its first member is not Arguments", rfl⟩
            | other =>
              exact ⟨.valueError "Task is a tuple but its first member is not Arguments", rfl⟩
        | other => exact ⟨.valueError "Task is neither a tuple nor Arguments.", rfl⟩
  obtain ⟨e, he⟩ := herr
  refine ⟨⟨e, he, ?_⟩, ?_⟩
  · simp [processConcurrentTasksStart, he]
  · intro c₀ hok
    simp [processConcurrentTasksStart, he] at hok

/-- The demo trace is an actual execution of the dispatcher on the one-job
list with a single device. -/
theorem demoSteps : DSteps demoSys demoTrace (initConfig [()] [0]) demoFinal := by
  refine DSteps.cons (DStep.checkGo _ 0 { device := 0, phase := .atLoop } rfl rfl rfl) ?_
  refine DSteps.cons (DStep.claimTake _ 0 { device := 0, phase := .claiming } () [] rfl rfl rfl) ?_
  refine DSteps.cons (DStep.runOk _ 0 { device := 0, phase := .running () } () rfl rfl rfl) ?_
  refine DSteps.cons (DStep.cbOk _ 0 { device := 0, phase := .calling () } () rfl rfl rfl) ?_
  refine DSteps.cons (DStep.checkGo _ 0 { device := 0, phase := .atLoop } rfl rfl rfl) ?_
  refine DSteps.cons (DStep.claimEmpty _ 0 { device := 0, phase := .claiming } rfl rfl rfl) ?_
  exact DSteps.nil _

/-- Witness for C1: on the concrete one-job, one-device run all hypotheses
hold, the callback fired exactly once with `tasksCompleted = 1`, and the
returned flag is `false`. -/
theorem ntc_C1_witness :
    demoFinal.calls
        = (List.range ([()] : List Unit).length).map (fun j => (([()] : List Unit).length, j + 1))
      ∧ demoFinal.terminate = false :=
  ntc_C1_no_failure_callback_counts demoSys [()] [0] demoTrace demoFinal
    (fun _ _ => rfl) (fun _ _ => rfl) (by decide) (by decide) demoSteps
    (by intro w hw; simp [demoFinal] at hw; rw [hw])

/-- Witness for C6 at the end of the concrete run: the counter is within the
original count and the flag is monotone from here. -/
theorem ntc_C6_witness :
    demoFinal.tasksCompleted ≤ demoFinal.originalTaskCount
      ∧ ∀ (l : DLbl) (c' : DConfig Unit), DStep demoSys l demoFinal c' →
        demoFinal.terminate = true → c'.terminate = true :=
  ntc_C6_counter_bound_and_flag_monotone demoSys [()] [0] demoTrace demoFinal demoSteps

/-- Witness for C10 at the end of the concrete run: the task list is a tail of
the original, the snapshot and the callback arguments carry the original
length, and the no-failure run drained the list. -/
theorem ntc_C10_witness :
    (∃ k, k ≤ ([()] : List Unit).length ∧ demoFinal.tasks = ([()] : List Unit).drop k)
      ∧ demoFinal.originalTaskCount = ([()] : List Unit).length
      ∧ (∀ x ∈ demoFinal.calls, x.1 = ([()] : List Unit).length)
      ∧ ((∀ t d, demoSys.runFails t d = false) → (∀ t n, demoSys.cbFails t n = false) →
          DLbl.sigint ∉ demoTrace → ([0] : List Int) ≠ [] → allStopped demoFinal →
          demoFinal.tasks = []) :=
  ntc_C10_task_list_consumed_in_place demoSys [()] [0] demoTrace demoFinal demoSteps

/-- Witness for C7: at a concrete state whose callback raises, the step stops
the worker, sets the flag, and both persist through every continuation. -/
theorem ntc_C7_witness :
    (demoCbCfg2.terminate = true
        ∧ demoCbCfg2.workers[0]? = some { device := 0, phase := .stopped })
      ∧ ∀ (tr : List DLbl) (c₃ : DConfig Unit), DSteps demoSysCb tr demoCbCfg2 c₃ →
        c₃.terminate = true
          ∧ c₃.workers[0]? = some { device := 0, phase := .stopped } :=
  ntc_C7_callback_exception_aborts demoSysCb demoCbCfg demoCbCfg2 0
    { device := 0, phase := .calling () } () rfl rfl rfl
    (DStep.cbFail demoCbCfg 0 { device := 0, phase := .calling () } () rfl rfl rfl)

/-- Witness for C5: a one-element list holding a plain non-tuple, non-Arguments
value is rejected before dispatch. -/
theorem ntc_C5_witness :
    (∃ e, validateTasks [PyTask.other] = .error e
        ∧ processConcurrentTasksStart [PyTask.other] [] = .error e)
      ∧ ∀ c₀ : DConfig PyTask, processConcurrentTasksStart [PyTask.other] [] ≠ .ok c₀ :=
  ntc_C5_validation_fails_fast [PyTask.other] []
    ⟨.other, List.mem_singleton.mpr rfl, rfl⟩

/-- **C2.**  An `ExperimentStart` event seals the in-progress `CompressionRun`
(appends it to `compressionRuns`) iff that run has recorded at least one
`TrainingStep` sample, discarding zero-sample runs, and the end-of-parse seal
applies the same rule to the last in-progress run; consequently the
specification's five-event sequence followed by the final seal yields exactly
two runs, with 2 samples (rate 2.0) and 1 sample (rate 4.0) respectively. -/
theorem ntc_C2_experiment_sealing (st : PState) (idx bpp : List Char) (q : ℚ)
    (hq : pyFloatQ bpp = .ok q) :
    ((∃ x l, st.2.learningCurve = some (x :: l)) →
      applyEvent st (.experiment idx bpp)
        = .ok ({ st.1 with
              compressionRuns := some (createOrAppend st.1.compressionRuns st.2) },
            { bitsPerPixel := some q, learningCurve := none }))
    ∧ ((st.2.learningCurve = none ∨ st.2.learningCurve = some []) →
      applyEvent st (.experiment idx bpp)
        = .ok (st.1, { bitsPerPixel := some q, learningCurve := none }))
    ∧ ((∃ x l, st.2.learningCurve = some (x :: l)) →
      finishParse st
        = { st.1 with compressionRuns := some (createOrAppend st.1.compressionRuns st.2) })
    ∧ ((st.2.learningCurve = none ∨ st.2.learningCurve = some []) → finishParse st = st.1)
    ∧ (runParse {} demoLines).map (fun r =>
        r.compressionRuns.map (fun l => l.map (fun cr =>
          (cr.bitsPerPixel, cr.learningCurve.map List.length))))
      = .ok (some [(some 2, some 2), (some 4, some 1)]) := by
  refine ⟨?_, ?_, ?_, ?_, by with_unfolding_all rfl⟩
  · rintro ⟨x, l, hcurve⟩
    simp [applyEvent, hcurve, curveTruthy, hq]
  · rintro (hcurve | hcurve) <;> simp [applyEvent, hcurve, curveTruthy, hq]
  · rintro ⟨x, l, hcurve⟩
    simp [finishParse, hcurve, curveTruthy]
  · rintro (hcurve | hcurve) <;> simp [finishParse, hcurve, curveTruthy]

/-- Witness for C2: at a state with one recorded sample, the `ExperimentStart`
event does seal the run. -/
theorem ntc_C2_witness :
    applyEvent demoPState (.experiment "0".toList "4".toList)
      = .ok ({ demoPState.1 with
            compressionRuns := some (createOrAppend demoPState.1.compressionRuns demoPState.2) },
          { bitsPerPixel := some 4, learningCurve := none }) :=
  (ntc_C2_experiment_sealing demoPState "0".toList "4".toList 4
    (by with_unfolding_all rfl)).1 ⟨(1000, 5, PFloat.fin 30), [], rfl⟩

/-- **C3 counterexample.**  Not every numeric field of the recognized patterns
accepts the infinity token: the `bpp` group of the BaseRate pattern is
`[0-9\.]+` only, so the line `Base compression rate: --bitsPerPixel inf` is
unrecognized (classified as no match), while the same line with a decimal
number is recognized — contradicting the claim that every numeric field parses
the infinity token rather than leaving the line unrecognized. -/
theorem ntc_C3_counterexample :
    classify "Base compression rate: --bitsPerPixel inf".toList = none
      ∧ classify "Base compression rate: --bitsPerPixel 4.0".toList
        = some (.baseRate "4.0".toList) := by
  exact ⟨by decide, by decide⟩

/-- **C3 amended.**  The quality (PSNR) fields of the patterns accept both a
plain decimal number and the literal `inf` token, mapping the latter to the
positive-infinity float value — so a quality line carrying the infinity token
parses to a positive-infinity quality value, not a parse error — while the
rate/time/size fields accept plain decimals only. -/
theorem ntc_C3_amended :
    (numOrInf "31.50 dB".toList = some ("31.50".toList, " dB".toList)
      ∧ numOrInf "inf dB".toList = some ("inf".toList, " dB".toList)
      ∧ pyFloatP "inf".toList = .ok PFloat.inf)
    ∧ classify "Selected compression rate: 4.00 bpp, inf dB PSNR".toList
        = some (.selectedRate "4.00".toList "inf".toList)
    ∧ (runParse {} ["Selected compression rate: 4.00 bpp, inf dB PSNR".toList]).map
        (fun r => r.overallPsnr) = .ok (some PFloat.inf)
    ∧ (runParse {} ["Overall PSNR (MSE weights): inf dB".toList]).map
        (fun r => r.overallPsnr) = .ok (some PFloat.inf) := by
  refine ⟨⟨by decide, by decide, by rfl⟩, by decide, ?_, ?_⟩
  · with_unfolding_all rfl
  · with_unfolding_all rfl

/-- **C9.**  A SelectedRate line sets both the result's rate field and its
standard overall-quality field to the two numbers of the line; in particular
parsing `"Selected compression rate: 4.00 bpp, 31.50 dB PSNR"` through `run`
yields rate `4.00` and overall quality `31.50`. -/
theorem ntc_C9_selected_rate_sets_rate_and_quality :
    (∀ (st : PState) (bpp psnr : List Char) (q : ℚ) (p : PFloat),
        pyFloatQ bpp = .ok q → pyFloatP psnr = .ok p →
        applyEvent st (.selectedRate bpp psnr)
          = .ok ({ st.1 with bitsPerPixel := some q, overallPsnr := some p }, st.2))
    ∧ (ntcRun { tool := "t" } 0
        { returncode := 0, stdout := "Selected compression rate: 4.00 bpp, 31.50 dB PSNR",
          stderr := "" }).map (fun r => (r.bitsPerPixel, r.overallPsnr))
      = .ok (some 4, some (.fin (63 / 2))) := by
  constructor
  · intro st bpp psnr q p hq hp
    simp [applyEvent, hq, hp]
  · with_unfolding_all rfl

/-- Witness for C9's general part, at the spec's own example numbers. -/
theorem ntc_C9_witness :
    applyEvent ({}, {}) (.selectedRate "4.00".toList "31.50".toList)
      = .ok ({ ({} : Result) with bitsPerPixel := some 4, overallPsnr := some (.fin (63 / 2)) },
          ({} : CompressionRun)) :=
  ntc_C9_selected_rate_sets_rate_and_quality.1 ({}, {}) "4.00".toList "31.50".toList
    4 (.fin (63 / 2)) (by with_unfolding_all rfl) (by with_unfolding_all rfl)

/-- A successful BaseRate branch sets `bitsPerPixel` to the parsed group. -/
theorem applyEvent_bpp_of_base {st st' : PState} {b : List Char}
    (h : applyEvent st (.baseRate b) = .ok st') :
    ∃ q, parseDec b = some q ∧ st'.1.bitsPerPixel = some q := by
  cases hb : parseDec b with
  | none => simp [applyEvent, pyFloatQ, hb] at h
  | some q =>
    refine ⟨q, rfl, ?_⟩
    simp only [applyEvent, pyFloatQ, hb, exceptBind_ok, exceptPure_eq, Except.ok.injEq] at h
    rw [← h]

/-- A successful SelectedRate branch sets `bitsPerPixel` to the parsed group. -/
theorem applyEvent_bpp_of_selected {st st' : PState} {b p : List Char}
    (h : applyEvent st (.selectedRate b p) = .ok st') :
    ∃ q, parseDec b = some q ∧ st'.1.bitsPerPixel = some q := by
  cases hb : parseDec b with
  | none => simp [applyEvent, pyFloatQ, hb] at h
  | some q =>
    refine ⟨q, rfl, ?_⟩
    cases hp : pyFloatP p with
    | error e => simp [applyEvent, pyFloatQ, hb, hp] at h
    | ok pv =>
      simp only [applyEvent, pyFloatQ, hb, hp, exceptBind_ok, exceptPure_eq,
        Except.ok.injEq] at h
      rw [← h]

/-- Every other successful branch leaves `bitsPerPixel` unchanged. -/
theorem applyEvent_bpp_of_other {st st' : PState} {e : Event}
    (h : applyEvent st e = .ok st')
    (hb : ∀ b, e ≠ .baseRate b) (hs : ∀ b p, e ≠ .selectedRate b p) :
    st'.1.bitsPerPixel = st.1.bitsPerPixel := by
  cases e with
  | baseRate b => exact absurd rfl (hb b)
  | selectedRate b p => exact absurd rfl (hs b p)
  | bcQuality p b =>
    cases hp : pyFloatP p with
    | error e => simp [applyEvent, hp] at h
    | ok pv =>
      cases hq : pyFloatQ b with
      | error e => simp [applyEvent, hp, hq] at h
      | ok qv =>
        simp only [applyEvent, hp, hq, exceptBind_ok, exceptPure_eq, Except.ok.injEq] at h
        rw [← h]
  | cudaDecompTime ms =>
    cases hq : pyFloatQ ms with
    | error e => simp [applyEvent, hq] at h
    | ok qv =>
      simp only [applyEvent, hq, exceptBind_ok, exceptPure_eq, Except.ok.injEq] at h
      rw [← h]
  | dims w hgt ch mips =>
    simp only [applyEvent, exceptPure_eq, Except.ok.injEq] at h
    rw [← h]
  | experiment idx b =>
    cases hq : pyFloatQ b with
    | error e => simp [applyEvent, hq] at h
    | ok qv =>
      simp only [applyEvent, hq, exceptBind_ok, exceptPure_eq, Except.ok.injEq] at h
      rw [← h]
      by_cases hc : curveTruthy st.2.learningCurve = true <;> simp [hc]
  | fileSize bytes b =>
    cases hq : pyFloatQ b with
    | error e => simp [applyEvent, hq] at h
    | ok qv =>
      simp only [applyEvent, hq, exceptBind_ok, exceptPure_eq, Except.ok.injEq] at h
      rw [← h]
  | graphicsDecompTime ms =>
    cases hq : pyFloatQ ms with
    | error e => simp [applyEvent, hq] at h
    | ok qv =>
      simp only [applyEvent, hq, exceptBind_ok, exceptPure_eq, Except.ok.injEq] at h
      rw [← h]
  | latentShape gss hrf lrf hrqb lrqb =>
    simp only [applyEvent, exceptPure_eq, Except.ok.injEq] at h
    rw [← h]
  | mip lvl p =>
    cases hp : pyFloatP p with
    | error e => simp [applyEvent, hp] at h
    | ok pv =>
      simp only [applyEvent, hp, exceptBind_ok, exceptPure_eq, Except.ok.injEq] at h
      rw [← h]
  | networkVersion ver =>
    simp only [applyEvent, exceptPure_eq, Except.ok.injEq] at h
    rw [← h]
  | overallPsnr ty p =>
    cases hp : pyFloatP p with
    | error e => simp [applyEvent, hp] at h
    | ok pv =>
      by_cases hty : ty = "FP8".toList <;>
        · simp only [applyEvent, hp, hty, exceptBind_ok, exceptPure_eq, Except.ok.injEq,
            if_true, if_false, reduceIte] at h
          rw [← h]
  | trainingStep steps ms p =>
    cases hm : pyFloatQ ms with
    | error e => simp [applyEvent, hm] at h
    | ok mv =>
      cases hp : pyFloatP p with
      | error e => simp [applyEvent, hm, hp] at h
      | ok pv =>
        simp only [applyEvent, hm, hp, exceptBind_ok, exceptPure_eq, Except.ok.injEq] at h
        rw [← h]
  | system gpu api a b c d =>
    simp only [applyEvent, exceptPure_eq, Except.ok.injEq] at h
    rw [← h]

/-- One loop iteration changes `bitsPerPixel` exactly when the line is a
rate-setting line, to that line's value. -/
theorem processLine_bpp {st st' : PState} {l : List Char}
    (h : processLine st l = .ok st') :
    st'.1.bitsPerPixel
      = match rateOfLine l with
        | some q => some q
        | none => st.1.bitsPerPixel := by
  unfold processLine at h
  cases hc : classify l with
  | none =>
    rw [hc] at h
    simp only [rateOfLine, hc]
    cases h
    rfl
  | some e =>
    rw [hc] at h
    have h' : applyEvent st e = .ok st' := h
    simp only [rateOfLine, hc]
    cases e with
    | baseRate b =>
      obtain ⟨q, hq, hbits⟩ := applyEvent_bpp_of_base h'
      simp [hq, hbits]
    | selectedRate b p =>
      obtain ⟨q, hq, hbits⟩ := applyEvent_bpp_of_selected h'
      simp [hq, hbits]
    | bcQuality p b => exact applyEvent_bpp_of_other h' (by intro b h; cases h) (by intro b p h; cases h)
    | cudaDecompTime ms => exact applyEvent_bpp_of_other h' (by intro b h; cases h) (by intro b p h; cases h)
    | dims w hgt ch mips => exact applyEvent_bpp_of_other h' (by intro b h; cases h) (by intro b p h; cases h)
    | experiment idx b => exact applyEvent_bpp_of_other h' (by intro b h; cases h) (by intro b p h; cases h)
    | fileSize bytes b => exact applyEvent_bpp_of_other h' (by intro b h; cases h) (by intro b p h; cases h)
    | graphicsDecompTime ms => exact applyEvent_bpp_of_other h' (by intro b h; cases h) (by intro b p h; cases h)
    | latentShape gss hrf lrf hrqb lrqb => exact applyEvent_bpp_of_other h' (by intro b h; cases h) (by intro b p h; cases h)
    | mip lvl p => exact applyEvent_bpp_of_other h' (by intro b h; cases h) (by intro b p h; cases h)
    | networkVersion ver => exact applyEvent_bpp_of_other h' (by intro b h; cases h) (by intro b p h; cases h)
    | overallPsnr ty p => exact applyEvent_bpp_of_other h' (by intro b h; cases h) (by intro b p h; cases h)
    | trainingStep steps ms p => exact applyEvent_bpp_of_other h' (by intro b h; cases h) (by intro b p h; cases h)
    | system gpu api a b c d => exact applyEvent_bpp_of_other h' (by intro b h; cases h) (by intro b p h; cases h)

/-- Over a whole successful parse, `bitsPerPixel` is the last rate-setting
line's value, or the initial value when no line set it. -/
theorem foldlM_bpp : ∀ (lines : List (List Char)) (st st' : PState),
    List.foldlM processLine st lines = .ok st' →
    st'.1.bitsPerPixel
      = match lastRate lines with
        | some q => some q
        | none => st.1.bitsPerPixel
  | [], st, st', h => by
    simp only [List.foldlM_nil, exceptPure_eq, Except.ok.injEq] at h
    rw [← h]
    rfl
  | l :: ls, st, st', h => by
    rw [List.foldlM_cons] at h
    cases h1 : processLine st l with
    | error e => rw [h1] at h; simp at h
    | ok st1 =>
      rw [h1, exceptBind_ok] at h
      have ih := foldlM_bpp ls st1 st' h
      have hline := processLine_bpp h1
      show st'.1.bitsPerPixel
        = match (match lastRate ls with
            | some q => some q
            | none => rateOfLine l) with
          | some q => some q
          | none => st.1.bitsPerPixel
      cases hlr : lastRate ls with
      | some q => rw [hlr] at ih; exact ih
      | none =>
        rw [hlr] at ih
        rw [ih, hline]

/-- The final seal never touches `bitsPerPixel`. -/
theorem finishParse_bpp (st : PState) : (finishParse st).bitsPerPixel = st.1.bitsPerPixel := by
  unfold finishParse
  split <;> rfl

/-- **C8 amended.**  Whenever `run` returns a `Result`, its rate field equals
the value parsed from the last BaseRate/SelectedRate line of the captured
output when at least one such line occurs, and equals the pre-supplied
`args.bitsPerPixel` when no line sets it.  (Equality with the pre-supplied
value alone does not imply that no line set it: a line may set the same
value — see the counterexample.) -/
theorem ntc_C8_rate_last_writer (args : Arguments) (elapsed : ℚ) (out : ProcOutput) (r : Result)
    (h : ntcRun args elapsed out = .ok r) :
    r.bitsPerPixel
      = match lastRate (splitLines out.stdout) with
        | some q => some q
        | none => args.bitsPerPixel := by
  unfold ntcRun at h
  cases hcmd : get_command_line args with
  | error e => rw [hcmd] at h; simp at h
  | ok cmd =>
    rw [hcmd, exceptBind_ok] at h
    by_cases hrc : out.returncode ≠ 0
    · rw [if_pos hrc] at h; cases h
    · rw [if_neg hrc] at h
      unfold runParse at h
      cases hfold : List.foldlM processLine
          ({ elapsedTime := elapsed, bitsPerPixel := args.bitsPerPixel }, {})
          (splitLines out.stdout) with
      | error e => rw [hfold] at h; simp at h
      | ok st =>
        rw [hfold, exceptBind_ok, exceptPure_eq] at h
        injection h with hr
        have hb := foldlM_bpp (splitLines out.stdout)
          ({ elapsedTime := elapsed, bitsPerPixel := args.bitsPerPixel }, {}) st hfold
        rw [← hr, finishParse_bpp, hb]

/-- **C8 counterexample.**  A run whose output contains a BaseRate line setting
the rate to the very value that was pre-supplied: the returned rate field
equals the pre-supplied value even though a line of the output set it, so
"rate equals the pre-supplied value iff no line of the output sets it" is false
as stated (the "only if" direction fails). -/
theorem ntc_C8_counterexample :
    (ntcRun c8args 0 c8out).map (fun r => r.bitsPerPixel) = .ok (some 4)
      ∧ c8args.bitsPerPixel = some 4
      ∧ lastRate (splitLines c8out.stdout) = some 4 := by
  refine ⟨?_, rfl, ?_⟩
  · with_unfolding_all rfl
  · with_unfolding_all rfl

/-- Witness for the amended C8 on a concrete run whose output sets the rate. -/
theorem ntc_C8_witness :
    ∃ r, ntcRun { tool := "t" } 0
        { returncode := 0, stdout := "Selected compression rate: 2.0 bpp, 30.0 dB PSNR",
          stderr := "" } = .ok r
      ∧ r.bitsPerPixel
        = match lastRate (splitLines "Selected compression rate: 2.0 bpp, 30.0 dB PSNR") with
          | some q => some q
          | none => ({ tool := "t" } : Arguments).bitsPerPixel := by
  have hok : ∃ r, ntcRun { tool := "t" } 0
      { returncode := 0, stdout := "Selected compression rate: 2.0 bpp, 30.0 dB PSNR",
        stderr := "" } = .ok r := by
    with_unfolding_all exact ⟨_, rfl⟩
  obtain ⟨r, hr⟩ := hok
  exact ⟨r, hr, ntc_C8_rate_last_writer _ 0 _ r hr⟩

/-- `float()` failures are `ValueError`s. -/
theorem pyFloatQ_error {cs : List Char} {e : PyErr} (h : pyFloatQ cs = .error e) :
    ∃ msg, e = .valueError msg := by
  unfold pyFloatQ at h
  cases hd : parseDec cs with
  | none =>
    rw [hd] at h
    injection h with he
    exact ⟨_, he.symm⟩
  | some q => rw [hd] at h; cases h

/-- `float()` failures on a quality group are `ValueError`s. -/
theorem pyFloatP_error {cs : List Char} {e : PyErr} (h : pyFloatP cs = .error e) :
    ∃ msg, e = .valueError msg := by
  unfold pyFloatP at h
  by_cases hinf : cs = "inf".toList
  · rw [if_pos hinf] at h; cases h
  · rw [if_neg hinf] at h
    cases hq : pyFloatQ cs with
    | error e' =>
      rw [hq] at h
      injection h with he
      obtain ⟨msg, rfl⟩ := pyFloatQ_error hq
      exact ⟨msg, he.symm⟩
    | ok q => rw [hq] at h; cases h

/-- Any exception escaping a matched branch of the `run()` loop is a
`ValueError` from a `float()` conversion. -/
theorem applyEvent_error {st : PState} {ev : Event} {e : PyErr}
    (h : applyEvent st ev = .error e) : ∃ msg, e = .valueError msg := by
  cases ev with
  | baseRate b =>
    cases hq : pyFloatQ b with
    | error e' =>
      simp only [applyEvent, hq, exceptBind_error, Except.error.injEq] at h
      exact h ▸ pyFloatQ_error hq
    | ok q => simp [applyEvent, hq] at h
  | selectedRate b p =>
    cases hq : pyFloatQ b with
    | error e' =>
      simp only [applyEvent, hq, exceptBind_error, Except.error.injEq] at h
      exact h ▸ pyFloatQ_error hq
    | ok q =>
      cases hp : pyFloatP p with
      | error e' =>
        simp only [applyEvent, hq, hp, exceptBind_ok, exceptBind_error, Except.error.injEq] at h
        exact h ▸ pyFloatP_error hp
      | ok pv => simp [applyEvent, hq, hp] at h
  | bcQuality p b =>
    cases hp : pyFloatP p with
    | error e' =>
      simp only [applyEvent, hp, exceptBind_error, Except.error.injEq] at h
      exact h ▸ pyFloatP_error hp
    | ok pv =>
      cases hq : pyFloatQ b with
      | error e' =>
        simp only [applyEvent, hp, hq, exceptBind_ok, exceptBind_error, Except.error.injEq] at h
        exact h ▸ pyFloatQ_error hq
      | ok q => simp [applyEvent, hp, hq] at h
  | cudaDecompTime ms =>
    cases hq : pyFloatQ ms with
    | error e' =>
      simp only [applyEvent, hq, exceptBind_error, Except.error.injEq] at h
      exact h ▸ pyFloatQ_error hq
    | ok q => simp [applyEvent, hq] at h
  | dims w hgt ch mips => simp [applyEvent] at h
  | experiment idx b =>
    cases hq : pyFloatQ b with
    | error e' =>
      simp only [applyEvent, hq, exceptBind_error, Except.error.injEq] at h
      exact h ▸ pyFloatQ_error hq
    | ok q => simp [applyEvent, hq] at h
  | fileSize bytes b =>
    cases hq : pyFloatQ b with
    | error e' =>
      simp only [applyEvent, hq, exceptBind_error, Except.error.injEq] at h
      exact h ▸ pyFloatQ_error hq
    | ok q => simp [applyEvent, hq] at h
  | graphicsDecompTime ms =>
    cases hq : pyFloatQ ms with
    | error e' =>
      simp only [applyEvent, hq, exceptBind_error, Except.error.injEq] at h
      exact h ▸ pyFloatQ_error hq
    | ok q => simp [applyEvent, hq] at h
  | latentShape gss hrf lrf hrqb lrqb => simp [applyEvent] at h
  | mip lvl p =>
    cases hp : pyFloatP p with
    | error e' =>
      simp only [applyEvent, hp, exceptBind_error, Except.error.injEq] at h
      exact h ▸ pyFloatP_error hp
    | ok pv => simp [applyEvent, hp] at h
  | networkVersion ver => simp [applyEvent] at h
  | overallPsnr ty p =>
    cases hp : pyFloatP p with
    | error e' =>
      simp only [applyEvent, hp, exceptBind_error, Except.error.injEq] at h
      exact h ▸ pyFloatP_error hp
    | ok pv =>
      simp only [applyEvent, hp, exceptBind_ok, exceptPure_eq] at h
      split at h <;> exact Except.noConfusion h
  | trainingStep steps ms p =>
    cases hm : pyFloatQ ms with
    | error e' =>
      simp only [applyEvent, hm, exceptBind_error, Except.error.injEq] at h
      exact h ▸ pyFloatQ_error hm
    | ok mv =>
      cases hp : pyFloatP p with
      | error e' =>
        simp only [applyEvent, hm, hp, exceptBind_ok, exceptBind_error, Except.error.injEq] at h
        exact h ▸ pyFloatP_error hp
      | ok pv => simp [applyEvent, hm, hp] at h
  | system gpu api a b c d => simp [applyEvent] at h

/-- Any exception escaping one loop iteration is a `ValueError`. -/
theorem processLine_error {st : PState} {l : List Char} {e : PyErr}
    (h : processLine st l = .error e) : ∃ msg, e = .valueError msg := by
  unfold processLine at h
  cases hc : classify l with
  | none => rw [hc] at h; cases h
  | some ev =>
    rw [hc] at h
    exact applyEvent_error h

/-- Any exception escaping the whole parsing loop is a `ValueError`. -/
theorem foldlM_processLine_error : ∀ (lines : List (List Char)) (st : PState) (e : PyErr),
    List.foldlM processLine st lines = .error e → ∃ msg, e = .valueError msg
  | [], st, e, h => by simp at h
  | l :: ls, st, e, h => by
    rw [List.foldlM_cons] at h
    cases h1 : processLine st l with
    | error e' =>
      rw [h1, exceptBind_error] at h
      injection h with he
      exact he ▸ processLine_error h1
    | ok st1 =>
      rw [h1, exceptBind_ok] at h
      exact foldlM_processLine_error ls st1 e h

/-- Any exception escaping `runParse` is a `ValueError`. -/
theorem runParse_error {init : Result} {lines : List (List Char)} {e : PyErr}
    (h : runParse init lines = .error e) : ∃ msg, e = .valueError msg := by
  unfold runParse at h
  cases hf : List.foldlM processLine (init, {}) lines with
  | error e' =>
    rw [hf, exceptBind_error] at h
    injection h with he
    exact he ▸ foldlM_processLine_error lines (init, {}) e' hf
  | ok st => rw [hf, exceptBind_ok, exceptPure_eq] at h; cases h

/-- **C4 amended.**  `run(args)` raises the `RuntimeError` failure iff the
spawned process exits with a non-zero status, and that failure carries exactly
the invoked argv, the exit code and both captured streams verbatim; on exit
code 0 no `RuntimeError` is raised — `run` returns a `Result`, except that a
matched numeric field whose text is not a valid float raises a `ValueError`
(see the counterexample against the unqualified "no exception" reading). -/
theorem ntc_C4_failure_iff (args : Arguments) (elapsed : ℚ) (out : ProcOutput)
    (cmd : List String) (hcmd : get_command_line args = .ok cmd) :
    (out.returncode ≠ 0 →
        ntcRun args elapsed out = .error (.runtimeError
          { command := cmd, returncode := out.returncode,
            stdout := out.stdout, stderr := out.stderr }))
      ∧ (∀ e, ntcRun args elapsed out = .error (.runtimeError e) →
          out.returncode ≠ 0
            ∧ e = ({ command := cmd, returncode := out.returncode,
                     stdout := out.stdout, stderr := out.stderr } : NtcFailure))
      ∧ (out.returncode = 0 →
          (∃ r, ntcRun args elapsed out = .ok r)
            ∨ ∃ msg, ntcRun args elapsed out = .error (.valueError msg)) := by
  have hrun : ntcRun args elapsed out
      = if out.returncode ≠ 0 then
          Except.error (.runtimeError
            { command := cmd, returncode := out.returncode,
              stdout := out.stdout, stderr := out.stderr })
        else
          runParse { elapsedTime := elapsed, bitsPerPixel := args.bitsPerPixel }
            (splitLines out.stdout) := by
    unfold ntcRun
    rw [hcmd, exceptBind_ok]
  refine ⟨?_, ?_, ?_⟩
  · intro hrc
    rw [hrun, if_pos hrc]
  · intro e he
    rw [hrun] at he
    by_cases hrc : out.returncode ≠ 0
    · rw [if_pos hrc] at he
      injection he with he'
      injection he' with he''
      exact ⟨hrc, he''.symm⟩
    · rw [if_neg hrc] at he
      obtain ⟨msg, hmsg⟩ := runParse_error he
      cases hmsg
  · intro hz
    have hrc : ¬out.returncode ≠ 0 := by simp [hz]
    rw [hrun, if_neg hrc]
    cases hres : runParse { elapsedTime := elapsed, bitsPerPixel := args.bitsPerPixel }
        (splitLines out.stdout) with
    | ok r => exact Or.inl ⟨r, rfl⟩
    | error e =>
      obtain ⟨msg, rfl⟩ := runParse_error hres
      exact Or.inr ⟨msg, rfl⟩

/-- **C4 counterexample.**  On exit code 0 an exception can still escape
`run`: the group `[0-9\.]+` matches `1.2.3`, and `float('1.2.3')` raises
`ValueError` — refuting the clause "on exit code 0 no exception is raised and
a Result is returned" (though the exception is not the `RuntimeError`
failure). -/
theorem ntc_C4_counterexample :
    c4out.returncode = 0
      ∧ ntcRun { tool := "t" } 0 c4out
        = .error (.valueError "could not convert string to float: 1.2.3") := by
  exact ⟨rfl, by decide⟩

/-- Witness for the amended C4 at a concrete failing invocation. -/
theorem ntc_C4_witness :
    get_command_line { tool := "t" } = .ok ["t", ""]
      ∧ ntcRun { tool := "t" } 0 { returncode := 1, stdout := "out", stderr := "err" }
        = .error (.runtimeError
          { command := ["t", ""], returncode := 1, stdout := "out", stderr := "err" }) :=
  ⟨by decide,
    (ntc_C4_failure_iff { tool := "t" } 0
      { returncode := 1, stdout := "out", stderr := "err" } ["t", ""] (by decide)).1
      (by decide)⟩
